import Mathlib

/-!
Verification of the Metaleria ticket lifecycle and ledger-consistency engine.

This file gives a shallow embedding of the core service layer
(`app/services/note_service.py`, `app/services/pricing_service.py`) and of
the thin web/API guards that complete the state machine
(`app/web/admin.py`, `app/api/pricing.py`), and proves or refutes the
frozen specification claims about it.

Modelling conventions:
* Python `Decimal` arithmetic (exact +, -, *, comparisons) is embedded as `ℚ`.
* SQLAlchemy rows become Lean structures; a database session becomes an
  explicit `DB` state record of row lists that operations thread through.
* A `raise ValueError(...)` in a transactional service function aborts the
  enclosing transaction with nothing committed; such functions are embedded
  as `Except Err _`, where an `Err` result carries no successor state.
  The `Err` constructor chosen for each `raise` site follows the error
  taxonomy of the specification (`InvalidTransition`, `InvalidAmount`, ...).
* Nullable numeric columns that the code always guards with `or 0` are
  modelled as total `ℚ` fields (the guard is then the identity); genuinely
  optional values (prices, subtotals, payment method, account) are `Option`.
* `cuenta_financiera` strings always hold the decimal rendering of an
  account id in the code, so account references are modelled as `Option ℕ`;
  the Python truthiness test `if cuenta_id` maps `some 0` to `none`.
* Timestamps are an abstract tick `now : ℕ` passed by the caller.
* Fields that no claim mentions (folio sequence, evidence URLs, invoice
  references, audit actor ids, timestamps on rows) are omitted from the row
  structures; no claim's meaning depends on them.
-/

/- Batteries marks rational arithmetic `irreducible`, which blocks `decide`
on concrete runs of the embedded operations; restore the default
reducibility so concrete evaluations go through the kernel. -/
attribute [local semireducible] Rat.add Rat.sub Rat.mul Rat.inv

/-- `TipoOperacion` enum from `app/models/pricing.py`. -/
inductive TipoOperacion
  | compra
  | venta
deriving DecidableEq

/-- `TipoCliente` enum from `app/models/pricing.py`. -/
inductive TipoCliente
  | regular
  | mayorista
  | menudeo
deriving DecidableEq

/-- `NotaEstado` enum from `app/models/note.py`. -/
inductive NotaEstado
  | borrador
  | en_revision
  | aprobada
  | cancelada
deriving DecidableEq

/-- Normalized payment-method strings used by the services
("efectivo", "transferencia", "cheque"). -/
inductive MetodoPago
  | efectivo
  | transferencia
  | cheque
deriving DecidableEq

/-- `tipo` strings written to `InventarioMovimiento` rows. -/
inductive InvMovTipo
  | compra
  | venta
  | ajuste
deriving DecidableEq

/-- `tipo` strings written to `MovimientoContable` rows. -/
inductive ContTipo
  | compra
  | venta
  | pago
  | reverso
  | reverso_pago
  | ajuste
deriving DecidableEq

/-- Error taxonomy of the specification; each constructor tags the
`raise ValueError` sites of the corresponding message family. -/
inductive Err
  | invalidTransition
  | invalidAmount
  | paymentExceedsBalance
  | missingAccount
  | insufficientStock
  | paidExceedsTotal
  | materialNotFound
  | invalidInput
deriving DecidableEq

/-- `Subpesaje` row (`app/models/note.py`). -/
structure Subpesaje where
  id : ℕ
  peso_kg : ℚ
  descuento_kg : ℚ
deriving DecidableEq

/-- `NotaMaterial` row (`app/models/note.py`), with its owned subpesajes. -/
structure NotaMaterial where
  id : ℕ
  material_id : ℕ
  kg_bruto : ℚ
  kg_descuento : ℚ
  kg_neto : ℚ
  precio_unitario : Option ℚ
  subtotal : Option ℚ
  version_precio_id : Option ℕ
  tipo_cliente : Option TipoCliente
  subpesajes : List Subpesaje
deriving DecidableEq

/-- `NotaPago` row (`app/models/note.py`). -/
structure NotaPago where
  monto : ℚ
  metodo_pago : Option MetodoPago
  cuenta_financiera : Option ℕ
deriving DecidableEq

/-- `Nota` row (`app/models/note.py`), with its owned materiales and pagos. -/
structure Nota where
  id : ℕ
  sucursal_id : ℕ
  tipo_operacion : TipoOperacion
  estado : NotaEstado
  materiales : List NotaMaterial
  total_kg_bruto : ℚ
  total_kg_descuento : ℚ
  total_kg_neto : ℚ
  total_monto : ℚ
  monto_pagado : ℚ
  metodo_pago : Option MetodoPago
  cuenta_financiera_id : Option ℕ
  pagos : List NotaPago
  comentarios_admin : Option String
deriving DecidableEq

/-- `Inventario` row (`app/models/inventory.py`), keyed by (sucursal, material). -/
structure Inventario where
  sucursal_id : ℕ
  material_id : ℕ
  stock_inicial : ℚ
  stock_actual : ℚ
deriving DecidableEq

/-- `InventarioMovimiento` row (`app/models/inventory.py`); the inventory
account is identified here by its (sucursal, material) key. -/
structure InventarioMovimiento where
  sucursal_id : ℕ
  material_id : ℕ
  nota_id : Option ℕ
  tipo : InvMovTipo
  cantidad_kg : ℚ
  saldo_resultante : ℚ
deriving DecidableEq

/-- `MovimientoContable` row (`app/models/account.py`). -/
structure MovimientoContable where
  nota_id : Option ℕ
  sucursal_id : ℕ
  tipo : ContTipo
  monto : ℚ
  metodo_pago : Option MetodoPago
  cuenta_financiera : Option ℕ
deriving DecidableEq

/-- `TablaPrecio` row (`app/models/pricing.py`). -/
structure TablaPrecio where
  id : ℕ
  material_id : ℕ
  tipo_operacion : TipoOperacion
  tipo_cliente : TipoCliente
  precio_por_unidad : ℚ
  version : ℕ
  vigente_desde : ℕ
  vigente_hasta : Option ℕ
  activo : Bool
deriving DecidableEq

/-- `PriceChangeLog` row (`app/models/pricing.py`). -/
structure PriceChangeLog where
  material_id : ℕ
  tipo_operacion : TipoOperacion
  tipo_cliente : TipoCliente
  old_precio_por_unidad : Option ℚ
  new_precio_por_unidad : ℚ
  old_version : Option ℕ
  new_version : ℕ
deriving DecidableEq

/-- The database state threaded through the service operations:
material ids, inventory accounts, both append-only ledgers, the price
table with its audit log, and the id sequence for new notas. -/
structure DB where
  materiales_ids : List ℕ
  inventarios : List Inventario
  movimientos_inv : List InventarioMovimiento
  movimientos_cont : List MovimientoContable
  precios : List TablaPrecio
  price_logs : List PriceChangeLog
  next_nota_id : ℕ
deriving DecidableEq

/-- `_sum_decimal` (`note_service.py`): left fold of exact decimal addition. -/
def sum_decimal (values : List ℚ) : ℚ :=
  values.foldl (fun total v => total + v) 0

/-- `_recalc_material` (`note_service.py`): recompute kg_bruto/kg_descuento/
kg_neto from the subpesajes when present, else kg_neto from the supplied
kg_bruto and kg_descuento.  Neither branch clamps the result. -/
def recalc_material (nm : NotaMaterial) : NotaMaterial :=
  if nm.subpesajes.isEmpty then
    { nm with kg_neto := nm.kg_bruto - nm.kg_descuento }
  else
    let bruto_sum := sum_decimal (nm.subpesajes.map (fun sp => sp.peso_kg))
    let desc_sum := sum_decimal (nm.subpesajes.map (fun sp => sp.descuento_kg))
    { nm with
        kg_neto := bruto_sum - desc_sum
        kg_descuento := desc_sum
        kg_bruto := bruto_sum }

/-- `_recalc_totals` (`note_service.py`): recalc every material, then set the
nota's four totals as sums over the materiales (monto only over priced lines). -/
def recalc_totals (nota : Nota) : Nota :=
  let ms := nota.materiales.map recalc_material
  { nota with
      materiales := ms
      total_kg_bruto := sum_decimal (ms.map (fun m => m.kg_bruto))
      total_kg_descuento := sum_decimal (ms.map (fun m => m.kg_descuento))
      total_kg_neto := sum_decimal (ms.map (fun m => m.kg_neto))
      total_monto := sum_decimal (ms.filterMap (fun m => m.subtotal)) }

/-- The active-price query shared by `apply_prices` and
`edit_note_by_superadmin`: filter by (material, operación, cliente, activo),
order by version descending, take the first row. -/
def lookup_precio (precios : List TablaPrecio) (material_id : ℕ)
    (op : TipoOperacion) (cli : TipoCliente) : Option TablaPrecio :=
  (precios.filter (fun tp =>
      tp.material_id = material_id ∧ tp.tipo_operacion = op ∧
      tp.tipo_cliente = cli ∧ tp.activo = true)).foldl
    (fun best tp =>
      match best with
      | none => some tp
      | some b => if b.version < tp.version then some tp else best)
    none

/-- The per-line body of `apply_prices`: resolve the active price for
(material, operación, customer class defaulted to regular); when found set
precio_unitario/version_precio_id and subtotal = price × net, else clear
all three. -/
def price_line (precios : List TablaPrecio) (op : TipoOperacion)
    (nm : NotaMaterial) : NotaMaterial :=
  let tipo_cli := nm.tipo_cliente.getD TipoCliente.regular
  match lookup_precio precios nm.material_id op tipo_cli with
  | some tp =>
      { nm with
          precio_unitario := some tp.precio_por_unidad
          version_precio_id := some tp.id
          subtotal := some (tp.precio_por_unidad * nm.kg_neto) }
  | none =>
      { nm with
          precio_unitario := none
          version_precio_id := none
          subtotal := none }

/-- `apply_prices` (`note_service.py`): price every line, then recalculate
the nota totals. -/
def apply_prices (precios : List TablaPrecio) (nota : Nota) : Nota :=
  recalc_totals
    { nota with
        materiales := nota.materiales.map (price_line precios nota.tipo_operacion) }

/-- First row matching the (sucursal, material) key, as returned by the
`.first()` query in `_get_or_create_inventario`. -/
def find_inventario (invs : List Inventario) (suc mat : ℕ) : Option Inventario :=
  invs.find? (fun i => i.sucursal_id = suc ∧ i.material_id = mat)

/-- `_get_or_create_inventario` (`note_service.py`): return the existing
account for (sucursal, material) or append a fresh one with zero balances. -/
def get_or_create_inventario (invs : List Inventario) (suc mat : ℕ) :
    List Inventario × Inventario :=
  match find_inventario invs suc mat with
  | some inv => (invs, inv)
  | none =>
      let inv : Inventario :=
        { sucursal_id := suc, material_id := mat
          stock_inicial := 0, stock_actual := 0 }
      (invs ++ [inv], inv)

/-- In-place mutation of the fetched account row: update `stock_actual` of
the first row matching the key, leaving every other row untouched. -/
def set_stock : List Inventario → ℕ → ℕ → ℚ → List Inventario
  | [], _, _, _ => []
  | i :: rest, suc, mat, q =>
      if i.sucursal_id = suc ∧ i.material_id = mat then
        { i with stock_actual := q } :: rest
      else
        i :: set_stock rest suc mat q

/-- Read view of an account balance: the stored `stock_actual`, or 0 when no
account row exists yet (matching the `or 0` guards around every read). -/
def stockOf (invs : List Inventario) (suc mat : ℕ) : ℚ :=
  ((find_inventario invs suc mat).map (fun i => i.stock_actual)).getD 0

/-- The loop body of `_validar_stock_para_venta`: fail when a line requires
more net kg than its account holds; the walk creates missing accounts as it
goes (a side effect of `_get_or_create_inventario`), so the threaded
account list is returned. -/
def validar_lineas (suc : ℕ) :
    List Inventario → List NotaMaterial → Except Err (List Inventario)
  | acc, [] => .ok acc
  | acc, nm :: rest =>
      let r := get_or_create_inventario acc suc nm.material_id
      if nm.kg_neto > r.2.stock_actual then .error Err.insufficientStock
      else validar_lineas suc r.1 rest

/-- `_validar_stock_para_venta` (`note_service.py`): for sale notas only,
walk the lines checking required net kg against available stock. -/
def validar_stock_para_venta (invs : List Inventario) (nota : Nota) :
    Except Err (List Inventario) :=
  if nota.tipo_operacion ≠ TipoOperacion.venta then .ok invs
  else validar_lineas nota.sucursal_id invs nota.materiales

/-- `_registrar_movimiento_inventario` (`note_service.py`): apply the signed
net-kg delta of one line (purchase +, sale −) to its account, clamping a
would-be-negative balance to zero, and append the movement row (quantity
stored as an absolute value). -/
def registrar_movimiento_inventario
    (invs : List Inventario) (movs : List InventarioMovimiento)
    (nota : Nota) (nm : NotaMaterial) :
    List Inventario × List InventarioMovimiento :=
  let tipo_mov :=
    if nota.tipo_operacion = TipoOperacion.compra then InvMovTipo.compra
    else InvMovTipo.venta
  let delta :=
    if tipo_mov = InvMovTipo.venta then -nm.kg_neto else nm.kg_neto
  let r := get_or_create_inventario invs nota.sucursal_id nm.material_id
  let saldo := r.2.stock_actual + delta
  let nuevo_saldo := if saldo < 0 then 0 else saldo
  let invs2 := set_stock r.1 nota.sucursal_id nm.material_id nuevo_saldo
  (invs2,
    movs ++ [{ sucursal_id := nota.sucursal_id
               material_id := nm.material_id
               nota_id := some nota.id
               tipo := tipo_mov
               cantidad_kg := |delta|
               saldo_resultante := nuevo_saldo }])

/-- The per-line inventory loop of `approve_note` and
`create_transfer_notes`: apply `_registrar_movimiento_inventario` to each
line in order. -/
def registrar_lineas (nota : Nota) :
    List Inventario × List InventarioMovimiento → List NotaMaterial →
    List Inventario × List InventarioMovimiento
  | st, [] => st
  | st, nm :: rest =>
      registrar_lineas nota (registrar_movimiento_inventario st.1 st.2 nota nm) rest

/-- Python truthiness on the stored account id: `str(x) if x else None`
(`some 0` behaves like `none`). -/
def cuenta_ref (o : Option ℕ) : Option ℕ :=
  match o with
  | some c => if c = 0 then none else some c
  | none => none

/-- `_registrar_movimiento_contable` (`note_service.py`): append one ledger
row; amount defaults to the nota total, kind defaults to the nota's
operation type, method/account default to the nota's. -/
def registrar_movimiento_contable
    (conts : List MovimientoContable) (nota : Nota)
    (metodo_pago : Option MetodoPago) (cuenta_financiera : Option ℕ)
    (monto : Option ℚ) (tipo : Option ContTipo) : List MovimientoContable :=
  let monto_val := monto.getD nota.total_monto
  let tipo_mov := tipo.getD
    (match nota.tipo_operacion with
     | TipoOperacion.compra => ContTipo.compra
     | TipoOperacion.venta => ContTipo.venta)
  conts ++ [{ nota_id := some nota.id
              sucursal_id := nota.sucursal_id
              tipo := tipo_mov
              monto := monto_val
              metodo_pago := metodo_pago <|> nota.metodo_pago
              cuenta_financiera :=
                cuenta_financiera <|> cuenta_ref nota.cuenta_financiera_id }]

/-- `_has_base_contable_movement` (`note_service.py`). -/
def has_base_contable_movement (conts : List MovimientoContable)
    (nota_id : ℕ) (tipo : ContTipo) : Bool :=
  conts.any (fun m => m.nota_id = some nota_id ∧ m.tipo = tipo)

/-- `_normalize_pago_incremental` (`note_service.py`): reject non-positive
amounts, compute the outstanding balance floored at zero, and reject an
amount exceeding it. -/
def normalize_pago_incremental (nota : Nota) (monto_pagado : ℚ) :
    Except Err ℚ :=
  if monto_pagado ≤ 0 then .error Err.invalidAmount
  else
    let saldo0 := nota.total_monto - nota.monto_pagado
    let saldo := if saldo0 < 0 then 0 else saldo0
    if monto_pagado > saldo then .error Err.paymentExceedsBalance
    else .ok monto_pagado

/-- `add_payment` (`note_service.py`): only on approved notas; normalize the
incremental amount; transfer/check require an account reference; append the
`NotaPago` row, bump `monto_pagado`, and (unless suppressed) append a
matching "pago" accounting movement. -/
def add_payment (conts : List MovimientoContable) (nota : Nota)
    (monto_pagado : ℚ) (metodo_pago : Option MetodoPago)
    (cuenta_financiera : Option ℕ) (registrar_contable : Bool) :
    Except Err (Nota × List MovimientoContable) :=
  if nota.estado ≠ NotaEstado.aprobada then .error Err.invalidTransition
  else
    match normalize_pago_incremental nota monto_pagado with
    | .error e => .error e
    | .ok monto =>
        let metodo := metodo_pago <|> nota.metodo_pago
        if (metodo = some MetodoPago.transferencia ∨
            metodo = some MetodoPago.cheque) ∧ cuenta_financiera = none then
          .error Err.missingAccount
        else
          let pago : NotaPago :=
            { monto := monto, metodo_pago := metodo
              cuenta_financiera := cuenta_financiera }
          let nota2 :=
            { nota with
                monto_pagado := nota.monto_pagado + monto
                pagos := nota.pagos ++ [pago] }
          let conts2 :=
            if registrar_contable then
              registrar_movimiento_contable conts nota2 metodo
                cuenta_financiera (some monto) (some ContTipo.pago)
            else conts
          .ok (nota2, conts2)

/-- `ajustar_stock` (`note_service.py`): manual signed adjustment, clamped
at a zero floor, appending one inventory movement (signed quantity) and one
zero-amount accounting "ajuste" row. -/
def ajustar_stock (db : DB) (sucursal_id material_id : ℕ)
    (cantidad_kg : ℚ) : DB :=
  let r := get_or_create_inventario db.inventarios sucursal_id material_id
  let nuevo0 := r.2.stock_actual + cantidad_kg
  let nuevo_saldo := if nuevo0 < 0 then 0 else nuevo0
  let invs2 := set_stock r.1 sucursal_id material_id nuevo_saldo
  { db with
      inventarios := invs2
      movimientos_inv := db.movimientos_inv ++
        [{ sucursal_id := sucursal_id, material_id := material_id
           nota_id := none, tipo := InvMovTipo.ajuste
           cantidad_kg := cantidad_kg, saldo_resultante := nuevo_saldo }]
      movimientos_cont := db.movimientos_cont ++
        [{ nota_id := none, sucursal_id := sucursal_id
           tipo := ContTipo.ajuste, monto := 0
           metodo_pago := none, cuenta_financiera := none }] }

/-- `update_state` (`note_service.py`): set the target state (no guard of its
own — callers enforce the machine), keep or replace admin comments, and
recalculate totals. -/
def update_state (nota : Nota) (new_state : NotaEstado)
    (comentarios_admin : Option String) : Nota :=
  recalc_totals
    { nota with
        estado := new_state
        comentarios_admin := comentarios_admin <|> nota.comentarios_admin }

/-- `send_to_revision` (`note_service.py`): only from BORRADOR; default every
line's customer class to regular, re-apply prices, move to EN_REVISION and
recalculate totals (the serialized snapshot row is not modelled). -/
def send_to_revision (precios : List TablaPrecio) (nota : Nota) :
    Except Err Nota :=
  if nota.estado ≠ NotaEstado.borrador then .error Err.invalidTransition
  else
    let ms := nota.materiales.map (fun nm =>
      if nm.tipo_cliente = none then
        { nm with tipo_cliente := some TipoCliente.regular }
      else nm)
    let nota1 := apply_prices precios { nota with materiales := ms }
    .ok (recalc_totals { nota1 with estado := NotaEstado.en_revision })

/-- The customer-class override loop shared by `approve_note` and
`edit_note_by_superadmin`. -/
def apply_tipo_cliente_map (ms : List NotaMaterial)
    (tcm : List (ℕ × TipoCliente)) : List NotaMaterial :=
  ms.map (fun nm =>
    match tcm.lookup nm.id with
    | some c => { nm with tipo_cliente := some c }
    | none => nm)

/-- The base accounting kind of a nota is its operation type. -/
def base_cont_tipo (op : TipoOperacion) : ContTipo :=
  match op with
  | TipoOperacion.compra => ContTipo.compra
  | TipoOperacion.venta => ContTipo.venta

/-- `approve_note` (`note_service.py`): only from BORRADOR/EN_REVISION.
Apply customer-class overrides, re-apply prices, validate sale stock,
normalize the payment method (transfer/check demand an account, cash clears
it), transition to APROBADA, apply one inventory movement per line, record
the base accounting movement unless one already exists, and finally
auto-register a full payment for cash (or any explicit positive initial
payment). -/
def approve_note (db : DB) (nota : Nota)
    (tipo_cliente_map : List (ℕ × TipoCliente))
    (comentarios_admin : Option String)
    (metodo_pago : Option MetodoPago) (cuenta_financiera : Option ℕ)
    (monto_pagado : Option ℚ) : Except Err (DB × Nota) :=
  if nota.estado ≠ NotaEstado.en_revision ∧ nota.estado ≠ NotaEstado.borrador then
    .error Err.invalidTransition
  else
    let nota0 :=
      { nota with materiales := apply_tipo_cliente_map nota.materiales tipo_cliente_map }
    let nota1 := apply_prices db.precios nota0
    match validar_stock_para_venta db.inventarios nota1 with
    | .error e => .error e
    | .ok invs0 =>
      let cuenta_res : Except Err (Option ℕ) :=
        if metodo_pago = some MetodoPago.transferencia ∨
           metodo_pago = some MetodoPago.cheque then
          match cuenta_financiera with
          | some c => .ok (some c)
          | none => .error Err.missingAccount
        else .ok none
      match cuenta_res with
      | .error e => .error e
      | .ok cuenta_id =>
        let nota2 := update_state
          { nota1 with metodo_pago := metodo_pago, cuenta_financiera_id := cuenta_id }
          NotaEstado.aprobada comentarios_admin
        let inv_res := registrar_lineas nota2 (invs0, db.movimientos_inv)
          nota2.materiales
        let base_tipo := base_cont_tipo nota2.tipo_operacion
        let conts1 :=
          if has_base_contable_movement db.movimientos_cont nota2.id base_tipo then
            db.movimientos_cont
          else
            registrar_movimiento_contable db.movimientos_cont nota2
              nota2.metodo_pago (cuenta_ref nota2.cuenta_financiera_id)
              none (some base_tipo)
        let pago_inicial : Option ℚ :=
          if metodo_pago = some MetodoPago.efectivo then some nota2.total_monto
          else
            match monto_pagado with
            | some m => if 0 < m then some m else none
            | none => none
        match pago_inicial with
        | some p =>
            if 0 < p then
              match add_payment conts1 nota2 p metodo_pago (cuenta_ref cuenta_id) true with
              | .error e => .error e
              | .ok r =>
                  .ok ({ db with
                           inventarios := inv_res.1
                           movimientos_inv := inv_res.2
                           movimientos_cont := r.2 }, r.1)
            else
              .ok ({ db with
                       inventarios := inv_res.1
                       movimientos_inv := inv_res.2
                       movimientos_cont := conts1 }, nota2)
        | none =>
            .ok ({ db with
                     inventarios := inv_res.1
                     movimientos_inv := inv_res.2
                     movimientos_cont := conts1 }, nota2)

/-- The per-line inventory reversal of `cancel_approved_note`: apply the
opposite signed delta of the original purchase/sale and refuse (rather than
clamp) a would-be-negative balance. -/
def revertir_linea (nota : Nota)
    (st : List Inventario × List InventarioMovimiento) (nm : NotaMaterial) :
    Except Err (List Inventario × List InventarioMovimiento) :=
  let signed_delta :=
    if nota.tipo_operacion = TipoOperacion.compra then -nm.kg_neto
    else nm.kg_neto
  let r := get_or_create_inventario st.1 nota.sucursal_id nm.material_id
  let nuevo_saldo := r.2.stock_actual + signed_delta
  if nuevo_saldo < 0 then Except.error Err.insufficientStock
  else
    Except.ok
      (set_stock r.1 nota.sucursal_id nm.material_id nuevo_saldo,
       st.2 ++ [{ sucursal_id := nota.sucursal_id
                  material_id := nm.material_id
                  nota_id := some nota.id
                  tipo := InvMovTipo.ajuste
                  cantidad_kg := signed_delta
                  saldo_resultante := nuevo_saldo }])

/-- The per-payment "reverso_pago" loop of `cancel_approved_note`. -/
def registrar_reversos_pagos (nota : Nota) :
    List MovimientoContable → List NotaPago → List MovimientoContable
  | cs, [] => cs
  | cs, pago :: rest =>
      registrar_reversos_pagos nota
        (registrar_movimiento_contable cs nota
          (pago.metodo_pago <|> nota.metodo_pago) pago.cuenta_financiera
          (some (pago.monto * (-1))) (some ContTipo.reverso_pago))
        rest

/-- The reversal loop of `cancel_approved_note`, stopping at the first
refused line. -/
def revertir_lineas (nota : Nota) :
    List Inventario × List InventarioMovimiento → List NotaMaterial →
    Except Err (List Inventario × List InventarioMovimiento)
  | st, [] => .ok st
  | st, nm :: rest =>
      match revertir_linea nota st nm with
      | .error e => .error e
      | .ok st2 => revertir_lineas nota st2 rest

/-- `cancel_approved_note` (`note_service.py`): only from APROBADA.  Back-fill
the base accounting movement if missing, reverse every line's inventory
effect refusing (rather than clamping) a would-be-negative balance, append a
"reverso" movement for the negated total and a "reverso_pago" per payment,
and move to CANCELADA. -/
def cancel_approved_note (db : DB) (nota : Nota)
    (comentarios_admin : Option String) : Except Err (DB × Nota) :=
  if nota.estado ≠ NotaEstado.aprobada then .error Err.invalidTransition
  else
    let base_tipo := base_cont_tipo nota.tipo_operacion
    let conts0 :=
      if has_base_contable_movement db.movimientos_cont nota.id base_tipo then
        db.movimientos_cont
      else
        registrar_movimiento_contable db.movimientos_cont nota
          nota.metodo_pago (cuenta_ref nota.cuenta_financiera_id)
          none (some base_tipo)
    match revertir_lineas nota (db.inventarios, db.movimientos_inv)
        nota.materiales with
    | .error e => .error e
    | .ok st =>
      let conts1 := registrar_movimiento_contable conts0 nota
        nota.metodo_pago (cuenta_ref nota.cuenta_financiera_id)
        (some (nota.total_monto * (-1))) (some ContTipo.reverso)
      let conts2 := registrar_reversos_pagos nota conts1 nota.pagos
      let nota1 :=
        { nota with
            estado := NotaEstado.cancelada
            comentarios_admin := comentarios_admin <|> nota.comentarios_admin }
      .ok ({ db with
               inventarios := st.1
               movimientos_inv := st.2
               movimientos_cont := conts2 }, nota1)

/-- `notas_devolver` handler (`app/web/admin.py`): reject only approved
notas, then unconditionally move the nota back to BORRADOR via
`update_state`. -/
def notas_devolver (nota : Nota) : Except Err Nota :=
  if nota.estado = NotaEstado.aprobada then .error Err.invalidTransition
  else .ok (update_state nota NotaEstado.borrador none)

/-- `notas_cancelar` handler (`app/web/admin.py`): approved notas go through
the compensating `cancel_approved_note`; any other nota is moved to
CANCELADA directly via `update_state`. -/
def notas_cancelar (db : DB) (nota : Nota) (comentarios_admin : Option String) :
    Except Err (DB × Nota) :=
  if nota.estado = NotaEstado.aprobada then
    cancel_approved_note db nota comentarios_admin
  else .ok (db, update_state nota NotaEstado.cancelada comentarios_admin)

/-- One sub-weighing of a `materiales_payload` entry for `create_draft_note`. -/
structure DraftSub where
  peso_kg : ℚ
  descuento_kg : ℚ
deriving DecidableEq

/-- One `materiales_payload` entry for `create_draft_note`. -/
structure DraftLine where
  material_id : ℕ
  kg_bruto : ℚ
  kg_descuento : ℚ
  tipo_cliente : Option TipoCliente
  subpesajes : List DraftSub
deriving DecidableEq

/-- Line construction inside `create_draft_note`: with sub-weighings the
gross/discount are their sums and the net is clamped at zero; without them
the supplied gross/discount are taken and the net is their unclamped
difference. -/
def build_draft_material (idx : ℕ) (mp : DraftLine) : NotaMaterial :=
  let subs := mp.subpesajes.map
    (fun sp => { id := 0, peso_kg := sp.peso_kg
                 descuento_kg := sp.descuento_kg : Subpesaje })
  if mp.subpesajes.isEmpty then
    { id := idx, material_id := mp.material_id
      kg_bruto := mp.kg_bruto, kg_descuento := mp.kg_descuento
      kg_neto := mp.kg_bruto - mp.kg_descuento
      precio_unitario := none, subtotal := none, version_precio_id := none
      tipo_cliente := mp.tipo_cliente, subpesajes := subs }
  else
    let bruto_sum := sum_decimal (mp.subpesajes.map (fun sp => sp.peso_kg))
    let desc_sum := sum_decimal (mp.subpesajes.map (fun sp => sp.descuento_kg))
    let kg_neto0 := bruto_sum - desc_sum
    { id := idx, material_id := mp.material_id
      kg_bruto := bruto_sum, kg_descuento := desc_sum
      kg_neto := if kg_neto0 < 0 then 0 else kg_neto0
      precio_unitario := none, subtotal := none, version_precio_id := none
      tipo_cliente := mp.tipo_cliente, subpesajes := subs }

/-- The enumeration of payload lines into materiales rows (display order
`orden = idx` doubles here as the row id). -/
def build_draft_materials : ℕ → List DraftLine → List NotaMaterial
  | _, [] => []
  | idx, mp :: rest => build_draft_material idx mp :: build_draft_materials (idx + 1) rest

/-- `create_draft_note` (`note_service.py`): every referenced material must
exist; build the lines, create the nota in BORRADOR, recalculate totals and
apply prices. -/
def create_draft_note (db : DB) (sucursal_id : ℕ)
    (tipo_operacion : TipoOperacion) (payload : List DraftLine) :
    Except Err (DB × Nota) :=
  if payload.any (fun mp => ¬ db.materiales_ids.contains mp.material_id) then
    .error Err.materialNotFound
  else
    let nota : Nota :=
      { id := db.next_nota_id, sucursal_id := sucursal_id
        tipo_operacion := tipo_operacion, estado := NotaEstado.borrador
        materiales := build_draft_materials 0 payload
        total_kg_bruto := 0, total_kg_descuento := 0, total_kg_neto := 0
        total_monto := 0, monto_pagado := 0
        metodo_pago := none, cuenta_financiera_id := none
        pagos := [], comentarios_admin := none }
    let nota1 := apply_prices db.precios (recalc_totals nota)
    .ok ({ db with next_nota_id := db.next_nota_id + 1 }, nota1)

/-- The per-line inventory adjustment of `edit_note_by_superadmin`: apply
the signed net-kg delta against the captured pre-edit value (direction per
operation type) and refuse a would-be-negative balance. -/
def ajustar_linea (nota : Nota) (old_kg_map : List (ℕ × ℚ))
    (st : List Inventario × List InventarioMovimiento) (nm : NotaMaterial) :
    Except Err (List Inventario × List InventarioMovimiento) :=
  let old_kg := (old_kg_map.lookup nm.id).getD 0
  let delta := nm.kg_neto - old_kg
  if delta = 0 then Except.ok st
  else
    let stock_delta :=
      if nota.tipo_operacion = TipoOperacion.compra then delta else -delta
    let r := get_or_create_inventario st.1 nota.sucursal_id nm.material_id
    let new_stock := r.2.stock_actual + stock_delta
    if new_stock < 0 then Except.error Err.insufficientStock
    else
      Except.ok
        (set_stock r.1 nota.sucursal_id nm.material_id new_stock,
         st.2 ++ [{ sucursal_id := nota.sucursal_id
                    material_id := nm.material_id
                    nota_id := some nota.id
                    tipo := InvMovTipo.ajuste
                    cantidad_kg := stock_delta
                    saldo_resultante := new_stock }])

/-- The adjustment loop of `edit_note_by_superadmin`, stopping at the
first refused line. -/
def ajustar_lineas (nota : Nota) (old_kg_map : List (ℕ × ℚ)) :
    List Inventario × List InventarioMovimiento → List NotaMaterial →
    Except Err (List Inventario × List InventarioMovimiento)
  | st, [] => .ok st
  | st, nm :: rest =>
      match ajustar_linea nota old_kg_map st nm with
      | .error e => .error e
      | .ok st2 => ajustar_lineas nota old_kg_map st2 rest

/-- `edit_note_by_superadmin` (`note_service.py`): apply customer-class,
direct-kg and sub-weighing overrides, recalculate and selectively re-price
lines, recompute totals, refuse a total below the amount already paid; on
approved notas apply per-line signed inventory adjustments refusing a
would-be-negative balance, and record one accounting "ajuste" movement for
a changed total. -/
def edit_note_by_superadmin (db : DB) (nota : Nota)
    (tipo_cliente_map : List (ℕ × TipoCliente))
    (kg_override_map : List (ℕ × ℚ × ℚ))
    (subpesaje_map : List (ℕ × ℚ × ℚ)) : Except Err (DB × Nota) :=
  let old_total := nota.total_monto
  let old_kg_map := nota.materiales.map (fun nm => (nm.id, nm.kg_neto))
  let old_tipo_cli_map := nota.materiales.map (fun nm => (nm.id, nm.tipo_cliente))
  let ms1 := nota.materiales.map (fun nm =>
    let nm1 :=
      match tipo_cliente_map.lookup nm.id with
      | some c => { nm with tipo_cliente := some c }
      | none => nm
    if ¬ nm1.subpesajes.isEmpty then
      { nm1 with subpesajes := nm1.subpesajes.map (fun sp =>
          match subpesaje_map.lookup sp.id with
          | some pd => { sp with peso_kg := pd.1, descuento_kg := pd.2 }
          | none => sp) }
    else
      match kg_override_map.lookup nm1.id with
      | some bd => { nm1 with kg_bruto := bd.1, kg_descuento := bd.2 }
      | none => nm1)
  let ms2 := ms1.map (fun nm =>
    let nm2 := recalc_material nm
    let tipo_cli := nm2.tipo_cliente.getD TipoCliente.regular
    let nm3 :=
      if (old_tipo_cli_map.lookup nm2.id).join ≠ some tipo_cli ∨
         nm2.precio_unitario = none then
        match lookup_precio db.precios nm2.material_id nota.tipo_operacion tipo_cli with
        | some tp =>
            { nm2 with
                precio_unitario := some tp.precio_por_unidad
                version_precio_id := some tp.id }
        | none =>
            { nm2 with precio_unitario := none, version_precio_id := none }
      else nm2
    match nm3.precio_unitario with
    | some p => { nm3 with subtotal := some (p * nm3.kg_neto) }
    | none => { nm3 with subtotal := none })
  let nota1 :=
    { nota with
        materiales := ms2
        total_kg_bruto := sum_decimal (ms2.map (fun m => m.kg_bruto))
        total_kg_descuento := sum_decimal (ms2.map (fun m => m.kg_descuento))
        total_kg_neto := sum_decimal (ms2.map (fun m => m.kg_neto))
        total_monto := sum_decimal (ms2.filterMap (fun m => m.subtotal)) }
  if nota1.total_monto < nota.monto_pagado then .error Err.paidExceedsTotal
  else if nota.estado = NotaEstado.aprobada then
    match ajustar_lineas nota old_kg_map (db.inventarios, db.movimientos_inv)
        ms2 with
    | .error e => .error e
    | .ok st =>
      let delta_total := nota1.total_monto - old_total
      let conts1 :=
        if delta_total ≠ 0 then
          registrar_movimiento_contable db.movimientos_cont nota1
            nota1.metodo_pago (cuenta_ref nota1.cuenta_financiera_id)
            (some delta_total) (some ContTipo.ajuste)
        else db.movimientos_cont
      .ok ({ db with
               inventarios := st.1
               movimientos_inv := st.2
               movimientos_cont := conts1 }, nota1)
  else .ok (db, nota1)

/-- One `materiales_payload` entry for `create_transfer_notes`; the unit
price is supplied explicitly by the admin, not looked up. -/
structure TransferLine where
  material_id : ℕ
  tipo_cliente : Option TipoCliente
  kg_bruto : ℚ
  kg_descuento : ℚ
  precio_unitario : ℚ
deriving DecidableEq

/-- The line-building loop of `_build_note` inside `create_transfer_notes`:
each material must exist, the explicit unit price must be strictly
positive, the net is the unclamped gross − discount, and the subtotal is
price × net.  Quantities themselves carry no validation. -/
def build_transfer_materials (db_mats : List ℕ) :
    ℕ → List TransferLine → Except Err (List NotaMaterial)
  | _, [] => .ok []
  | idx, mp :: rest =>
      if ¬ db_mats.contains mp.material_id then .error Err.materialNotFound
      else if mp.precio_unitario ≤ 0 then .error Err.invalidAmount
      else
        let kg_neto := mp.kg_bruto - mp.kg_descuento
        let nm : NotaMaterial :=
          { id := idx, material_id := mp.material_id
            kg_bruto := mp.kg_bruto, kg_descuento := mp.kg_descuento
            kg_neto := kg_neto
            precio_unitario := some mp.precio_unitario
            subtotal := some (mp.precio_unitario * kg_neto)
            version_precio_id := none
            tipo_cliente := some (mp.tipo_cliente.getD TipoCliente.regular)
            subpesajes := [] }
        match build_transfer_materials db_mats (idx + 1) rest with
        | .ok ms => .ok (nm :: ms)
        | .error e => .error e

/-- `_build_note` inside `create_transfer_notes`: a nota born APROBADA with
the explicit-price lines, recalculated totals, no payment method and a zero
amount paid. -/
def build_transfer_note (db_mats : List ℕ) (nota_id sucursal_id : ℕ)
    (op : TipoOperacion) (payload : List TransferLine) : Except Err Nota :=
  match build_transfer_materials db_mats 0 payload with
  | .error e => .error e
  | .ok ms =>
      let nota : Nota :=
        { id := nota_id, sucursal_id := sucursal_id
          tipo_operacion := op, estado := NotaEstado.aprobada
          materiales := ms
          total_kg_bruto := 0, total_kg_descuento := 0, total_kg_neto := 0
          total_monto := 0, monto_pagado := 0
          metodo_pago := none, cuenta_financiera_id := none
          pagos := [], comentarios_admin := none }
      let nota1 := recalc_totals nota
      .ok { nota1 with metodo_pago := none, monto_pagado := 0 }

/-- `create_transfer_notes` (`note_service.py`): at least one line, a valid
admin, distinct branches; build the APROBADA sale nota at the origin and
purchase nota at the destination, run the sale-side stock validation,
cross-reference the two notas in their admin comments, and apply one
inventory movement per line of each nota.  No accounting movement is
recorded. -/
def create_transfer_notes (db : DB) (origen destino : ℕ)
    (payload : List TransferLine) (admin_id : Option ℕ)
    (comentario origen_nombre destino_nombre : Option String) :
    Except Err (DB × Nota × Nota) :=
  if payload.isEmpty then .error Err.invalidInput
  else if admin_id.getD 0 = 0 then .error Err.invalidInput
  else if origen = destino then .error Err.invalidInput
  else
    match build_transfer_note db.materiales_ids db.next_nota_id origen
        TipoOperacion.venta payload with
    | .error e => .error e
    | .ok nota_salida =>
      match build_transfer_note db.materiales_ids (db.next_nota_id + 1) destino
          TipoOperacion.compra payload with
      | .error e => .error e
      | .ok nota_entrada =>
        match validar_stock_para_venta db.inventarios nota_salida with
        | .error e => .error e
        | .ok invs0 =>
          let comment_base := comentario.getD "Transferencia entre sucursales"
          let destino_txt := destino_nombre.getD "sucursal destino"
          let origen_txt := origen_nombre.getD "sucursal origen"
          let ns :=
            { nota_salida with
                comentarios_admin := some (comment_base ++ ". Destino: " ++
                  destino_txt ++ ". Nota entrada #" ++ toString nota_entrada.id) }
          let ne :=
            { nota_entrada with
                comentarios_admin := some (comment_base ++ ". Origen: " ++
                  origen_txt ++ ". Nota salida #" ++ toString nota_salida.id) }
          let st1 := registrar_lineas ns (invs0, db.movimientos_inv) ns.materiales
          let st2 := registrar_lineas ne st1 ne.materiales
          .ok ({ db with
                   inventarios := st2.1
                   movimientos_inv := st2.2
                   next_nota_id := db.next_nota_id + 2 }, ns, ne)

/-- The ORDER BY version DESC `.first()` over all rows of a pricing key
(active or not), used by `create_price_version` to find the latest
version. -/
def last_version_row (precios : List TablaPrecio) (material_id : ℕ)
    (op : TipoOperacion) (cli : TipoCliente) : Option TablaPrecio :=
  (precios.filter (fun tp =>
      tp.material_id = material_id ∧ tp.tipo_operacion = op ∧
      tp.tipo_cliente = cli)).foldl
    (fun best tp =>
      match best with
      | none => some tp
      | some b => if b.version < tp.version then some tp else best)
    none

/-- `create_price_version` (`pricing_service.py`): find the latest version
for the key, deactivate every active row of the key stamping its
effective-until, insert the new active row at version latest+1 (or 1), and
append one `PriceChangeLog` row. -/
def create_price_version (precios : List TablaPrecio)
    (logs : List PriceChangeLog) (new_id now material_id : ℕ)
    (op : TipoOperacion) (cli : TipoCliente) (precio : ℚ) :
    List TablaPrecio × List PriceChangeLog × TablaPrecio :=
  let last := last_version_row precios material_id op cli
  let next_version := match last with | some l => l.version + 1 | none => 1
  let precios1 := precios.map (fun row =>
    if row.material_id = material_id ∧ row.tipo_operacion = op ∧
       row.tipo_cliente = cli ∧ row.activo = true then
      { row with activo := false, vigente_hasta := some now }
    else row)
  let tp : TablaPrecio :=
    { id := new_id, material_id := material_id
      tipo_operacion := op, tipo_cliente := cli
      precio_por_unidad := precio, version := next_version
      vigente_desde := now, vigente_hasta := none, activo := true }
  (precios1 ++ [tp],
   logs ++ [{ material_id := material_id
              tipo_operacion := op, tipo_cliente := cli
              old_precio_por_unidad := last.map (fun l => l.precio_por_unidad)
              new_precio_por_unidad := precio
              old_version := last.map (fun l => l.version)
              new_version := next_version }],
   tp)

/-- The price-creation operation as exposed by its callers: both the API
model validator (`TablaPrecioBase.validate_price`, `app/api/pricing.py`)
and the web form handler (`material_precio_new_post`, `app/web/admin.py`)
reject a price ≤ 0 before invoking the service. -/
def create_price_version_checked (precios : List TablaPrecio)
    (logs : List PriceChangeLog) (new_id now material_id : ℕ)
    (op : TipoOperacion) (cli : TipoCliente) (precio : ℚ) :
    Except Err (List TablaPrecio × List PriceChangeLog × TablaPrecio) :=
  if precio ≤ 0 then .error Err.invalidAmount
  else .ok (create_price_version precios logs new_id now material_id op cli precio)

/-- Decidable equality on `Except`, so that concrete runs of the embedded
operations can be checked by `decide`. -/
instance {e a : Type} [DecidableEq e] [DecidableEq a] : DecidableEq (Except e a) := fun x y =>
  match x, y with
  | .error u, .error v =>
      if h : u = v then isTrue (by simp [h]) else isFalse (by simp [h])
  | .error _, .ok _ => isFalse (by simp)
  | .ok _, .error _ => isFalse (by simp)
  | .ok u, .ok v =>
      if h : u = v then isTrue (by simp [h]) else isFalse (by simp [h])

/-! ## Fixtures for concrete witnesses -/

/-- A weight line without sub-weighings. -/
def mk_material (lid mat : ℕ) (bruto desc : ℚ) : NotaMaterial :=
  { id := lid, material_id := mat, kg_bruto := bruto, kg_descuento := desc
    kg_neto := bruto - desc, precio_unitario := none, subtotal := none
    version_precio_id := none, tipo_cliente := none, subpesajes := [] }

/-- A bare nota. -/
def mk_nota (e : NotaEstado) (op : TipoOperacion) (ms : List NotaMaterial) : Nota :=
  { id := 1, sucursal_id := 1, tipo_operacion := op, estado := e
    materiales := ms
    total_kg_bruto := 0, total_kg_descuento := 0, total_kg_neto := 0
    total_monto := 0, monto_pagado := 0
    metodo_pago := none, cuenta_financiera_id := none
    pagos := [], comentarios_admin := none }

/-- A small database with materials 7 and 8. -/
def mk_db (invs : List Inventario) (precios : List TablaPrecio) : DB :=
  { materiales_ids := [7, 8], inventarios := invs
    movimientos_inv := [], movimientos_cont := []
    precios := precios, price_logs := [], next_nota_id := 2 }

/-- A line whose stored net already equals its recalculated net. -/
def NetConsistent (nm : NotaMaterial) : Prop :=
  (recalc_material nm).kg_neto = nm.kg_neto

/-- A nota whose stored line nets agree with their recalculated values —
true of every nota the service itself produces, since every creation or
mutation path recalculates before pricing. -/
def NetsConsistent (n : Nota) : Prop :=
  ∀ nm ∈ n.materiales, NetConsistent nm

/-- A price-table row fixture. -/
def mk_precio (pid mat : ℕ) (op : TipoOperacion) (cli : TipoCliente)
    (precio : ℚ) (ver : ℕ) (act : Bool) : TablaPrecio :=
  { id := pid, material_id := mat, tipo_operacion := op, tipo_cliente := cli
    precio_por_unidad := precio, version := ver
    vigente_desde := 0, vigente_hasta := none, activo := act }

/-- An approved nota with total 100 and 30 already paid. -/
def nota4w : Nota :=
  { mk_nota NotaEstado.aprobada TipoOperacion.compra [] with
      total_monto := 100, monto_pagado := 30 }

/-- `nota4w` after a successful 50-unit payment. -/
def nota4r : Nota :=
  { mk_nota NotaEstado.aprobada TipoOperacion.compra [] with
      total_monto := 100, monto_pagado := 80, pagos := [⟨50, none, none⟩] }

/-- An approved purchase nota with total 950, no lines and no payments. -/
def notaC7 : Nota :=
  { mk_nota NotaEstado.aprobada TipoOperacion.compra [] with total_monto := 950 }

/-- An empty database whose ledger receives the cancellation rows. -/
def dbC7 : DB := mk_db [] []

/-- `dbC7` after cancelling `notaC7`: the back-filled base row (amount 950)
followed by the reversal row storing −950. -/
def dbC7r : DB :=
  { dbC7 with movimientos_cont :=
      [{ nota_id := some 1, sucursal_id := 1, tipo := ContTipo.compra
         monto := 950, metodo_pago := none, cuenta_financiera := none },
       { nota_id := some 1, sucursal_id := 1, tipo := ContTipo.reverso
         monto := -950, metodo_pago := none, cuenta_financiera := none }] }

/-- `notaC7` after cancellation. -/
def notaC7r : Nota := { notaC7 with estado := NotaEstado.cancelada }

/-- A one-line transfer payload: 10 kg of material 7 at unit price 5. -/
def payloadC10 : List TransferLine :=
  [{ material_id := 7, tipo_cliente := none, kg_bruto := 10
     kg_descuento := 0, precio_unitario := 5 }]

/-- A database holding 100 kg of material 7 at branch 1. -/
def dbC10 : DB := mk_db [⟨1, 7, 100, 100⟩] []

/-- The line both transfer notas carry for `payloadC10`. -/
def nmC10 : NotaMaterial :=
  { id := 0, material_id := 7, kg_bruto := 10, kg_descuento := 0
    kg_neto := 10, precio_unitario := some 5, subtotal := some 50
    version_precio_id := none, tipo_cliente := some TipoCliente.regular
    subpesajes := [] }

/-- The outgoing (sale) transfer nota produced from `payloadC10`. -/
def nsC10 : Nota :=
  { id := 2, sucursal_id := 1, tipo_operacion := TipoOperacion.venta
    estado := NotaEstado.aprobada, materiales := [nmC10]
    total_kg_bruto := 10, total_kg_descuento := 0, total_kg_neto := 10
    total_monto := 50, monto_pagado := 0
    metodo_pago := none, cuenta_financiera_id := none, pagos := []
    comentarios_admin := some (
      "Transferencia entre sucursales. Destino: sucursal destino. Nota entrada #3") }

/-- The incoming (purchase) transfer nota produced from `payloadC10`. -/
def neC10 : Nota :=
  { nsC10 with
      id := 3
      sucursal_id := 2
      tipo_operacion := TipoOperacion.compra
      comentarios_admin := some (
        "Transferencia entre sucursales. Origen: sucursal origen. Nota salida #2") }

/-- `dbC10` after the transfer: stock moved, two inventory movements, and
an untouched accounting ledger. -/
def dbC10r : DB :=
  { dbC10 with
      inventarios := [⟨1, 7, 100, 90⟩, ⟨2, 7, 0, 10⟩]
      movimientos_inv :=
        [{ sucursal_id := 1, material_id := 7, nota_id := some 2
           tipo := InvMovTipo.venta, cantidad_kg := 10, saldo_resultante := 90 },
         { sucursal_id := 2, material_id := 7, nota_id := some 3
           tipo := InvMovTipo.compra, cantidad_kg := 10, saldo_resultante := 10 }]
      next_nota_id := 4 }

/-- All inventory account balances are non-negative — the stock invariant
of the spec. -/
def WFStocks (invs : List Inventario) : Prop :=
  ∀ i ∈ invs, 0 ≤ i.stock_actual

/-- The lines `approve_note` validates and registers: the nota's lines
after the customer-class overrides and the re-pricing recalculation. -/
def approve_lines (db : DB) (nota : Nota)
    (tcm : List (ℕ × TipoCliente)) : List NotaMaterial :=
  (apply_prices db.precios
    { nota with materiales := apply_tipo_cliente_map nota.materiales tcm }).materiales

/-- A draft sale nota asking for 5 kg of material 7. -/
def notaC3 : Nota :=
  mk_nota NotaEstado.borrador TipoOperacion.venta [mk_material 1 7 5 0]

/-- A database with no inventory at all. -/
def dbC3 : DB := mk_db [] []

/-- A database holding 100 kg of material 7 at branch 1. -/
def dbC2 : DB := mk_db [⟨1, 7, 100, 100⟩] []

/-- A draft sale nota with two 60 kg lines of the same material — the
duplicate-material counterexample to the round-trip claim. -/
def notaC2 : Nota :=
  mk_nota NotaEstado.borrador TipoOperacion.venta
    [mk_material 1 7 60 0, mk_material 2 7 60 0]

/-- A draft one-line 10 kg purchase nota (round-trip witness input). -/
def notaC2w : Nota :=
  mk_nota NotaEstado.borrador TipoOperacion.compra [mk_material 1 7 10 0]

/-- An empty database (round-trip witness input). -/
def dbC2w : DB := mk_db [] []

/-- `notaC2w` as returned by a successful approval. -/
def n2C2w : Nota :=
  { mk_nota NotaEstado.aprobada TipoOperacion.compra [mk_material 1 7 10 0] with
      total_kg_bruto := 10, total_kg_neto := 10 }

/-- `dbC2w` after approving `notaC2w`. -/
def db2C2w : DB :=
  { mk_db [] [] with
      inventarios := [⟨1, 7, 0, 10⟩]
      movimientos_inv := [{ sucursal_id := 1, material_id := 7
                            nota_id := some 1, tipo := InvMovTipo.compra
                            cantidad_kg := 10, saldo_resultante := 10 }]
      movimientos_cont := [{ nota_id := some 1, sucursal_id := 1
                             tipo := ContTipo.compra, monto := 0
                             metodo_pago := none
                             cuenta_financiera := none }] }

/-- `db2C2w` after cancelling the approved nota. -/
def db3C2w : DB :=
  { db2C2w with
      inventarios := [⟨1, 7, 0, 0⟩]
      movimientos_inv := db2C2w.movimientos_inv ++
        [{ sucursal_id := 1, material_id := 7, nota_id := some 1
           tipo := InvMovTipo.ajuste, cantidad_kg := -10
           saldo_resultante := 0 }]
      movimientos_cont := db2C2w.movimientos_cont ++
        [{ nota_id := some 1, sucursal_id := 1, tipo := ContTipo.reverso
           monto := 0, metodo_pago := none, cuenta_financiera := none }] }

/-- The cancelled nota of the round-trip witness. -/
def n3C2w : Nota := { n2C2w with estado := NotaEstado.cancelada }

/-! ## Basic lemmas about recalculation -/

theorem recalc_material_id (nm : NotaMaterial) :
    (recalc_material nm).id = nm.id := by
  unfold recalc_material; split <;> rfl

theorem recalc_material_mat (nm : NotaMaterial) :
    (recalc_material nm).material_id = nm.material_id := by
  unfold recalc_material; split <;> rfl

theorem recalc_material_tipo_cliente (nm : NotaMaterial) :
    (recalc_material nm).tipo_cliente = nm.tipo_cliente := by
  unfold recalc_material; split <;> rfl

theorem recalc_material_precio (nm : NotaMaterial) :
    (recalc_material nm).precio_unitario = nm.precio_unitario := by
  unfold recalc_material; split <;> rfl

theorem recalc_material_subtotal (nm : NotaMaterial) :
    (recalc_material nm).subtotal = nm.subtotal := by
  unfold recalc_material; split <;> rfl

theorem recalc_material_version (nm : NotaMaterial) :
    (recalc_material nm).version_precio_id = nm.version_precio_id := by
  unfold recalc_material; split <;> rfl

theorem recalc_material_subs (nm : NotaMaterial) :
    (recalc_material nm).subpesajes = nm.subpesajes := by
  unfold recalc_material; split <;> rfl

theorem recalc_material_net (nm : NotaMaterial) :
    (recalc_material nm).kg_neto =
      (recalc_material nm).kg_bruto - (recalc_material nm).kg_descuento := by
  unfold recalc_material; split <;> rfl

theorem recalc_material_idem (nm : NotaMaterial) :
    recalc_material (recalc_material nm) = recalc_material nm := by
  unfold recalc_material
  by_cases h : nm.subpesajes.isEmpty <;> simp [h]

theorem recalc_totals_estado (n : Nota) :
    (recalc_totals n).estado = n.estado := rfl

theorem update_state_estado (n : Nota) (s : NotaEstado) (c : Option String) :
    (update_state n s c).estado = s := rfl

theorem apply_prices_line_net (P : List TablaPrecio) (n : Nota) :
    ∀ nm ∈ (apply_prices P n).materiales,
      nm.kg_neto = nm.kg_bruto - nm.kg_descuento := by
  intro nm hm
  unfold apply_prices recalc_totals at hm
  simp only [List.map_map, List.mem_map] at hm
  obtain ⟨x, _, hx⟩ := hm
  subst hx
  simpa using recalc_material_net (price_line P n.tipo_operacion x)

/-! ## C5 — recalculation of a weight line -/

/-- C5 counterexample: `recalculateLine` does not floor the net at zero.
A line with gross 1 kg and discount 2 kg (no sub-weighings) recalculates to
net −1 kg, and a line whose single sub-weighing has gross 1 / discount 2
likewise, so a weight line can carry a negative net kg after recalculation,
contrary to the claim. -/
theorem c5_counterexample :
    (recalc_material (mk_material 1 7 1 2)).kg_neto = -1 ∧
    (recalc_material
      { mk_material 1 7 0 0 with
          subpesajes := [{ id := 1, peso_kg := 1, descuento_kg := 2 }] }).kg_neto
      = -1 := by
  constructor <;> decide

/-- C5 (amended): `recalculateLine` computes net = gross − discount with no
clamping in either branch: with sub-weighings gross and discount become the
sub-weighing sums and the net their difference, otherwise the net is the
supplied gross − discount; every recalculated line therefore satisfies
net = gross − discount, including every line of a freshly created draft
(the zero-clamp in `create_draft_note`'s sub-weighing branch is overwritten
by the final recalculation), so negative nets can persist. -/
theorem c5_amended :
    (∀ nm : NotaMaterial, nm.subpesajes = [] →
        (recalc_material nm).kg_neto = nm.kg_bruto - nm.kg_descuento) ∧
    (∀ nm : NotaMaterial, nm.subpesajes ≠ [] →
        (recalc_material nm).kg_neto =
          sum_decimal (nm.subpesajes.map (fun sp => sp.peso_kg)) -
            sum_decimal (nm.subpesajes.map (fun sp => sp.descuento_kg))) ∧
    (∀ nm : NotaMaterial,
        (recalc_material nm).kg_neto =
          (recalc_material nm).kg_bruto - (recalc_material nm).kg_descuento) ∧
    (∀ (db : DB) (suc : ℕ) (op : TipoOperacion) (payload : List DraftLine)
        (db2 : DB) (n2 : Nota),
        create_draft_note db suc op payload = .ok (db2, n2) →
        ∀ nm ∈ n2.materiales, nm.kg_neto = nm.kg_bruto - nm.kg_descuento) := by
  refine ⟨?_, ?_, recalc_material_net, ?_⟩
  · intro nm h
    unfold recalc_material
    simp [h]
  · intro nm h
    unfold recalc_material
    simp [h]
  · intro db suc op payload db2 n2 h nm hm
    unfold create_draft_note at h
    split at h
    · cases h
    · injection h with h3
      obtain ⟨h4, h5⟩ := Prod.mk.inj h3
      subst h5
      exact apply_prices_line_net db.precios _ nm hm

/-- C5 amended, witnessed at concrete lines and a concrete draft. -/
theorem c5_amended_witness :
    ((recalc_material (mk_material 1 7 5 2)).kg_neto =
      (mk_material 1 7 5 2).kg_bruto - (mk_material 1 7 5 2).kg_descuento) ∧
    ((recalc_material
        { mk_material 1 7 0 0 with
            subpesajes := [{ id := 1, peso_kg := 4, descuento_kg := 1 }] }).kg_neto =
      sum_decimal ([{ id := 1, peso_kg := 4, descuento_kg := 1 : Subpesaje }].map
          (fun sp => sp.peso_kg)) -
        sum_decimal ([{ id := 1, peso_kg := 4, descuento_kg := 1 : Subpesaje }].map
          (fun sp => sp.descuento_kg))) ∧
    ((mk_material 0 7 3 5).kg_neto =
      (mk_material 0 7 3 5).kg_bruto - (mk_material 0 7 3 5).kg_descuento) := by
  refine ⟨c5_amended.1 _ rfl, ?_, ?_⟩
  · exact c5_amended.2.1 _ (by decide)
  · exact c5_amended.2.2.2 (mk_db [] []) 1 TipoOperacion.compra
      [{ material_id := 7, kg_bruto := 3, kg_descuento := 5
         tipo_cliente := none, subpesajes := [] }]
      { mk_db [] [] with next_nota_id := 3 }
      { mk_nota NotaEstado.borrador TipoOperacion.compra [mk_material 0 7 3 5] with
          id := 2, total_kg_bruto := 3, total_kg_descuento := 5, total_kg_neto := -2 }
      (by decide) (mk_material 0 7 3 5) (by decide)


/-! ## C1 — the ticket state machine -/

theorem normalize_error_cases (nota : Nota) (m : ℚ) (e : Err)
    (h : normalize_pago_incremental nota m = .error e) :
    e = Err.invalidAmount ∨ e = Err.paymentExceedsBalance := by
  simp only [normalize_pago_incremental] at h
  repeat' split at h
  all_goals simp_all

theorem add_payment_ne_invTrans (conts : List MovimientoContable) (nota : Nota)
    (m : ℚ) (mp : Option MetodoPago) (cf : Option ℕ) (rc : Bool)
    (h : nota.estado = NotaEstado.aprobada) :
    add_payment conts nota m mp cf rc ≠ .error Err.invalidTransition := by
  unfold add_payment
  rw [if_neg (by simp [h])]
  split
  · rename_i e hn
    rcases normalize_error_cases nota m e hn with h1 | h1 <;> simp [h1]
  · by_cases hc : ((mp <|> nota.metodo_pago) = some MetodoPago.transferencia ∨
        (mp <|> nota.metodo_pago) = some MetodoPago.cheque) ∧ cf = none
    · simp [hc]
    · simp [hc]

theorem add_payment_ok_estado (conts : List MovimientoContable) (nota : Nota)
    (m : ℚ) (mp : Option MetodoPago) (cf : Option ℕ) (rc : Bool)
    (r : Nota × List MovimientoContable)
    (h : add_payment conts nota m mp cf rc = .ok r) :
    r.1.estado = nota.estado := by
  simp only [add_payment] at h
  split at h
  · cases h
  · split at h
    · cases h
    · split at h
      · cases h
      · injection h with h1
        rw [← h1]

theorem add_payment_ok_monto (conts : List MovimientoContable) (nota : Nota)
    (m : ℚ) (mp : Option MetodoPago) (cf : Option ℕ) (rc : Bool)
    (r : Nota × List MovimientoContable)
    (h : add_payment conts nota m mp cf rc = .ok r) :
    r.1.monto_pagado = nota.monto_pagado + m ∧
      r.1.total_monto = nota.total_monto := by
  simp only [add_payment] at h
  split at h
  · cases h
  · split at h
    · cases h
    · rename_i monto hn
      have hm : monto = m := by
        simp only [normalize_pago_incremental] at hn
        repeat' split at hn
        all_goals simp_all
      split at h
      · cases h
      · injection h with h1
        rw [← h1, hm]
        exact ⟨rfl, rfl⟩

theorem validar_lineas_error (suc : ℕ) (L : List NotaMaterial) :
    ∀ (acc : List Inventario) (e : Err),
      validar_lineas suc acc L = .error e → e = Err.insufficientStock := by
  induction L with
  | nil => intro acc e h; cases h
  | cons nm rest ih =>
      intro acc e h
      simp only [validar_lineas] at h
      split at h
      · injection h with h1; exact h1.symm
      · exact ih _ e h

theorem validar_error_cases (invs : List Inventario) (nota : Nota) (e : Err)
    (h : validar_stock_para_venta invs nota = .error e) :
    e = Err.insufficientStock := by
  unfold validar_stock_para_venta at h
  split at h
  · cases h
  · exact validar_lineas_error _ _ _ _ h

theorem revertir_lineas_error (nota : Nota) (L : List NotaMaterial) :
    ∀ (st : List Inventario × List InventarioMovimiento) (e : Err),
      revertir_lineas nota st L = .error e → e = Err.insufficientStock := by
  induction L with
  | nil => intro st e h; cases h
  | cons nm rest ih =>
      intro st e h
      simp only [revertir_lineas] at h
      split at h
      · rename_i e2 he
        injection h with h2
        subst h2
        simp only [revertir_linea] at he
        repeat' split at he
        all_goals first
          | (injection he with h1; exact h1.symm)
          | cases he
      · exact ih _ e h

theorem cancel_ne_invTrans (db : DB) (n : Nota) (ca : Option String)
    (h : n.estado = NotaEstado.aprobada) :
    cancel_approved_note db n ca ≠ .error Err.invalidTransition := by
  unfold cancel_approved_note
  rw [if_neg (by simp [h])]
  split
  · rename_i e he
    rw [revertir_lineas_error n n.materiales _ e he]
    simp
  · simp

theorem approve_ne_invTrans (db : DB) (n : Nota)
    (tcm : List (ℕ × TipoCliente)) (ca : Option String)
    (mp : Option MetodoPago) (cf : Option ℕ) (mto : Option ℚ)
    (h : n.estado = NotaEstado.borrador ∨ n.estado = NotaEstado.en_revision) :
    approve_note db n tcm ca mp cf mto ≠ .error Err.invalidTransition := by
  have hg : ¬(n.estado ≠ NotaEstado.en_revision ∧ n.estado ≠ NotaEstado.borrador) := by
    rcases h with h | h <;> simp [h]
  simp only [approve_note, if_neg hg]
  repeat' split
  all_goals first
    | (rename_i e he
       rw [validar_error_cases _ _ e he]
       simp)
    | (rename_i e he
       intro hh
       injection hh with h2
       subst h2
       exact add_payment_ne_invTrans _ _ _ _ _ _ rfl he)
    | (rename_i e he
       have hma : e = Err.missingAccount := by
         split at he
         · split at he
           · cases he
           · injection he with h1; exact h1.symm
         · cases he
       rw [hma]
       simp)
    | simp

theorem approve_ok_estado (db : DB) (n : Nota)
    (tcm : List (ℕ × TipoCliente)) (ca : Option String)
    (mp : Option MetodoPago) (cf : Option ℕ) (mto : Option ℚ)
    (db2 : DB) (n2 : Nota)
    (h : approve_note db n tcm ca mp cf mto = .ok (db2, n2)) :
    n2.estado = NotaEstado.aprobada := by
  simp only [approve_note] at h
  split at h
  · cases h
  · split at h
    · cases h
    · split at h
      · cases h
      · split at h
        · split at h
          · split at h
            · cases h
            · rename_i r he
              injection h with h1
              obtain ⟨hdb, hn⟩ := Prod.mk.inj h1
              subst hn
              exact (add_payment_ok_estado _ _ _ _ _ _ _ he).trans rfl
          · injection h with h1
            obtain ⟨hdb, hn⟩ := Prod.mk.inj h1
            subst hn
            rfl
        · injection h with h1
          obtain ⟨hdb, hn⟩ := Prod.mk.inj h1
          subst hn
          rfl

theorem cancel_ok_estado (db : DB) (n : Nota) (ca : Option String)
    (db2 : DB) (n2 : Nota)
    (h : cancel_approved_note db n ca = .ok (db2, n2)) :
    n2.estado = NotaEstado.cancelada := by
  simp only [cancel_approved_note] at h
  split at h
  · cases h
  · split at h
    · cases h
    · injection h with h1
      obtain ⟨hdb, hn⟩ := Prod.mk.inj h1
      subst hn
      rfl

/-- C1 counterexample: returning a CANCELADA nota to draft through the web
`devolver` operation does not fail with `InvalidTransition` — it succeeds
and moves the nota to BORRADOR, a transition out of the supposedly terminal
cancelled state. -/
theorem c1_counterexample :
    (notas_devolver (mk_nota NotaEstado.cancelada TipoOperacion.compra [])).map
      (fun n => n.estado) = .ok NotaEstado.borrador := by decide

/-- C1 (amended): the state machine as implemented.  The service layer moves
exactly BORRADOR to EN_REVISION (`send_to_revision`), exactly
BORRADOR/EN_REVISION to APROBADA (`approve_note`), and exactly APROBADA to
CANCELADA (`cancel_approved_note`), failing with `InvalidTransition`
otherwise and never failing with `InvalidTransition` from a legal source
state.  However the web return operation (`notas_devolver`) rejects only
APROBADA and moves any other nota — including a CANCELADA one — to
BORRADOR, and the web cancel operation (`notas_cancelar`) moves any
non-approved nota — including an already-CANCELADA one — to CANCELADA
without error.  A failing operation returns no successor state (the
transaction rolls back), leaving the nota unchanged. -/
theorem c1_amended :
    (∀ (precios : List TablaPrecio) (n : Nota),
      (n.estado ≠ NotaEstado.borrador →
        send_to_revision precios n = .error Err.invalidTransition) ∧
      (n.estado = NotaEstado.borrador →
        (send_to_revision precios n).map (fun x => x.estado) =
          .ok NotaEstado.en_revision)) ∧
    (∀ (db : DB) (n : Nota) (tcm : List (ℕ × TipoCliente)) (ca : Option String)
        (mp : Option MetodoPago) (cf : Option ℕ) (mto : Option ℚ),
      (n.estado ≠ NotaEstado.borrador → n.estado ≠ NotaEstado.en_revision →
        approve_note db n tcm ca mp cf mto = .error Err.invalidTransition) ∧
      ((n.estado = NotaEstado.borrador ∨ n.estado = NotaEstado.en_revision) →
        approve_note db n tcm ca mp cf mto ≠ .error Err.invalidTransition) ∧
      (∀ (db2 : DB) (n2 : Nota),
        approve_note db n tcm ca mp cf mto = .ok (db2, n2) →
        n2.estado = NotaEstado.aprobada)) ∧
    (∀ (db : DB) (n : Nota) (ca : Option String),
      (n.estado ≠ NotaEstado.aprobada →
        cancel_approved_note db n ca = .error Err.invalidTransition) ∧
      (n.estado = NotaEstado.aprobada →
        cancel_approved_note db n ca ≠ .error Err.invalidTransition) ∧
      (∀ (db2 : DB) (n2 : Nota),
        cancel_approved_note db n ca = .ok (db2, n2) →
        n2.estado = NotaEstado.cancelada)) ∧
    (∀ n : Nota,
      (n.estado = NotaEstado.aprobada →
        notas_devolver n = .error Err.invalidTransition) ∧
      (n.estado ≠ NotaEstado.aprobada →
        (notas_devolver n).map (fun x => x.estado) = .ok NotaEstado.borrador)) ∧
    (∀ (db : DB) (n : Nota) (ca : Option String),
      (n.estado ≠ NotaEstado.aprobada →
        (notas_cancelar db n ca).map (fun x => x.2.estado) =
          .ok NotaEstado.cancelada) ∧
      (n.estado = NotaEstado.aprobada →
        notas_cancelar db n ca = cancel_approved_note db n ca)) := by
  refine ⟨?_, ?_, ?_, ?_, ?_⟩
  · intro precios n
    constructor
    · intro h
      unfold send_to_revision
      rw [if_pos h]
    · intro h
      unfold send_to_revision
      rw [if_neg (by simp [h])]
      rfl
  · intro db n tcm ca mp cf mto
    refine ⟨?_, approve_ne_invTrans db n tcm ca mp cf mto,
      fun db2 n2 => approve_ok_estado db n tcm ca mp cf mto db2 n2⟩
    intro h1 h2
    unfold approve_note
    rw [if_pos ⟨h2, h1⟩]
  · intro db n ca
    refine ⟨?_, cancel_ne_invTrans db n ca,
      fun db2 n2 => cancel_ok_estado db n ca db2 n2⟩
    intro h1
    unfold cancel_approved_note
    rw [if_pos h1]
  · intro n
    constructor
    · intro h
      unfold notas_devolver
      rw [if_pos h]
    · intro h
      unfold notas_devolver
      rw [if_neg h]
      rfl
  · intro db n ca
    constructor
    · intro h
      unfold notas_cancelar
      rw [if_neg h]
      rfl
    · intro h
      unfold notas_cancelar
      rw [if_pos h]

/-- C1 amended, witnessed across all five operations at concrete notas. -/
theorem c1_amended_witness :
    send_to_revision [] (mk_nota NotaEstado.aprobada TipoOperacion.compra []) =
      .error Err.invalidTransition ∧
    (send_to_revision [] (mk_nota NotaEstado.borrador TipoOperacion.compra [])).map
      (fun x => x.estado) = .ok NotaEstado.en_revision ∧
    approve_note (mk_db [] []) (mk_nota NotaEstado.cancelada TipoOperacion.compra [])
      [] none none none none = .error Err.invalidTransition ∧
    approve_note (mk_db [] []) (mk_nota NotaEstado.borrador TipoOperacion.compra [])
      [] none none none none ≠ .error Err.invalidTransition ∧
    (mk_nota NotaEstado.aprobada TipoOperacion.compra []).estado =
      NotaEstado.aprobada ∧
    cancel_approved_note (mk_db [] [])
      (mk_nota NotaEstado.en_revision TipoOperacion.compra []) none =
      .error Err.invalidTransition ∧
    (mk_nota NotaEstado.cancelada TipoOperacion.compra []).estado =
      NotaEstado.cancelada ∧
    notas_devolver (mk_nota NotaEstado.aprobada TipoOperacion.compra []) =
      .error Err.invalidTransition ∧
    (notas_devolver (mk_nota NotaEstado.cancelada TipoOperacion.venta [])).map
      (fun x => x.estado) = .ok NotaEstado.borrador ∧
    (notas_cancelar (mk_db [] [])
        (mk_nota NotaEstado.cancelada TipoOperacion.compra []) none).map
      (fun x => x.2.estado) = .ok NotaEstado.cancelada ∧
    notas_cancelar (mk_db [] [])
        (mk_nota NotaEstado.aprobada TipoOperacion.compra []) none =
      cancel_approved_note (mk_db [] [])
        (mk_nota NotaEstado.aprobada TipoOperacion.compra []) none := by
  refine ⟨?_, ?_, ?_, ?_, ?_, ?_, ?_, ?_, ?_, ?_, ?_⟩
  · exact (c1_amended.1 [] _).1 (by decide)
  · exact (c1_amended.1 [] _).2 rfl
  · exact (c1_amended.2.1 (mk_db [] []) _ [] none none none none).1
      (by decide) (by decide)
  · exact (c1_amended.2.1 (mk_db [] []) _ [] none none none none).2.1
      (Or.inl rfl)
  · exact (c1_amended.2.1 (mk_db [] [])
        (mk_nota NotaEstado.borrador TipoOperacion.compra [])
        [] none none none none).2.2
      { mk_db [] [] with
          movimientos_cont := [⟨some 1, 1, ContTipo.compra, 0, none, none⟩] }
      (mk_nota NotaEstado.aprobada TipoOperacion.compra []) (by decide)
  · exact (c1_amended.2.2.1 (mk_db [] []) _ none).1 (by decide)
  · exact (c1_amended.2.2.1 (mk_db [] [])
        (mk_nota NotaEstado.aprobada TipoOperacion.compra []) none).2.2
      { mk_db [] [] with
          movimientos_cont :=
            [⟨some 1, 1, ContTipo.compra, 0, none, none⟩,
             ⟨some 1, 1, ContTipo.reverso, 0, none, none⟩] }
      (mk_nota NotaEstado.cancelada TipoOperacion.compra []) (by decide)
  · exact (c1_amended.2.2.2.1 _).1 rfl
  · exact (c1_amended.2.2.2.1 _).2 (by decide)
  · exact (c1_amended.2.2.2.2 (mk_db [] []) _ none).1 (by decide)
  · exact (c1_amended.2.2.2.2 (mk_db [] []) _ none).2 rfl

/-! ## C9 — idempotence of pricing and recalculation -/

theorem price_line_neto (P : List TablaPrecio) (op : TipoOperacion) (nm : NotaMaterial) :
    (price_line P op nm).kg_neto = nm.kg_neto := by
  simp only [price_line]
  cases lookup_precio P nm.material_id op (nm.tipo_cliente.getD TipoCliente.regular) <;> rfl

theorem price_line_bruto (P : List TablaPrecio) (op : TipoOperacion) (nm : NotaMaterial) :
    (price_line P op nm).kg_bruto = nm.kg_bruto := by
  simp only [price_line]
  cases lookup_precio P nm.material_id op (nm.tipo_cliente.getD TipoCliente.regular) <;> rfl

theorem price_line_desc (P : List TablaPrecio) (op : TipoOperacion) (nm : NotaMaterial) :
    (price_line P op nm).kg_descuento = nm.kg_descuento := by
  simp only [price_line]
  cases lookup_precio P nm.material_id op (nm.tipo_cliente.getD TipoCliente.regular) <;> rfl

theorem price_line_subs (P : List TablaPrecio) (op : TipoOperacion) (nm : NotaMaterial) :
    (price_line P op nm).subpesajes = nm.subpesajes := by
  simp only [price_line]
  cases lookup_precio P nm.material_id op (nm.tipo_cliente.getD TipoCliente.regular) <;> rfl

theorem price_line_cliente (P : List TablaPrecio) (op : TipoOperacion) (nm : NotaMaterial) :
    (price_line P op nm).tipo_cliente = nm.tipo_cliente := by
  simp only [price_line]
  cases lookup_precio P nm.material_id op (nm.tipo_cliente.getD TipoCliente.regular) <;> rfl

theorem price_line_mat (P : List TablaPrecio) (op : TipoOperacion) (nm : NotaMaterial) :
    (price_line P op nm).material_id = nm.material_id := by
  simp only [price_line]
  cases lookup_precio P nm.material_id op (nm.tipo_cliente.getD TipoCliente.regular) <;> rfl

theorem recalc_material_kg_congr (a b : NotaMaterial)
    (hs : a.subpesajes = b.subpesajes) (hb : a.kg_bruto = b.kg_bruto)
    (hd : a.kg_descuento = b.kg_descuento) :
    (recalc_material a).kg_neto = (recalc_material b).kg_neto := by
  unfold recalc_material
  by_cases h : b.subpesajes.isEmpty <;> simp [hs, hb, hd, h]

theorem price_line_eq_of_some (P : List TablaPrecio) (op : TipoOperacion)
    (nm : NotaMaterial) (tp : TablaPrecio)
    (hl : lookup_precio P nm.material_id op (nm.tipo_cliente.getD TipoCliente.regular) =
      some tp) :
    price_line P op nm =
      { nm with
          precio_unitario := some tp.precio_por_unidad
          version_precio_id := some tp.id
          subtotal := some (tp.precio_por_unidad * nm.kg_neto) } := by
  simp only [price_line, hl]

theorem price_line_eq_of_none (P : List TablaPrecio) (op : TipoOperacion)
    (nm : NotaMaterial)
    (hl : lookup_precio P nm.material_id op (nm.tipo_cliente.getD TipoCliente.regular) =
      none) :
    price_line P op nm =
      { nm with
          precio_unitario := none
          version_precio_id := none
          subtotal := none } := by
  simp only [price_line, hl]

theorem notamaterial_update_self (x : NotaMaterial) (p s : Option ℚ) (v : Option ℕ)
    (hp : x.precio_unitario = p) (hs : x.subtotal = s) (hv : x.version_precio_id = v) :
    ({ x with precio_unitario := p, version_precio_id := v, subtotal := s } :
      NotaMaterial) = x := by
  cases x
  simp_all

theorem price_line_fixed (P : List TablaPrecio) (op : TipoOperacion)
    (nm : NotaMaterial) (h : NetConsistent nm) :
    price_line P op (recalc_material (price_line P op nm)) =
      recalc_material (price_line P op nm) := by
  have hneto : (recalc_material (price_line P op nm)).kg_neto = nm.kg_neto := by
    rw [recalc_material_kg_congr (price_line P op nm) nm
      (price_line_subs P op nm) (price_line_bruto P op nm) (price_line_desc P op nm)]
    exact h
  have hmat : (recalc_material (price_line P op nm)).material_id = nm.material_id := by
    rw [recalc_material_mat, price_line_mat]
  have hcli : (recalc_material (price_line P op nm)).tipo_cliente = nm.tipo_cliente := by
    rw [recalc_material_tipo_cliente, price_line_cliente]
  cases hl : lookup_precio P nm.material_id op (nm.tipo_cliente.getD TipoCliente.regular) with
  | some tp =>
      rw [price_line_eq_of_some P op _ tp (by rw [hmat, hcli]; exact hl)]
      refine notamaterial_update_self _ _ _ _ ?_ ?_ ?_
      · rw [recalc_material_precio, price_line_eq_of_some P op nm tp hl]
      · rw [hneto, recalc_material_subtotal, price_line_eq_of_some P op nm tp hl]
      · rw [recalc_material_version, price_line_eq_of_some P op nm tp hl]
  | none =>
      rw [price_line_eq_of_none P op _ (by rw [hmat, hcli]; exact hl)]
      refine notamaterial_update_self _ _ _ _ ?_ ?_ ?_
      · rw [recalc_material_precio, price_line_eq_of_none P op nm hl]
      · rw [recalc_material_subtotal, price_line_eq_of_none P op nm hl]
      · rw [recalc_material_version, price_line_eq_of_none P op nm hl]

theorem apply_prices_materiales (P : List TablaPrecio) (n : Nota) :
    (apply_prices P n).materiales =
      n.materiales.map (fun x => recalc_material (price_line P n.tipo_operacion x)) := by
  simp [apply_prices, recalc_totals, List.map_map]

theorem apply_prices_consistent (P : List TablaPrecio) (n : Nota) :
    NetsConsistent (apply_prices P n) := by
  intro nm hm
  rw [apply_prices_materiales] at hm
  obtain ⟨x, _, hx⟩ := List.mem_map.mp hm
  subst hx
  unfold NetConsistent
  rw [recalc_material_idem]

theorem recalc_totals_idem (n : Nota) :
    recalc_totals (recalc_totals n) = recalc_totals n := by
  have hM : (n.materiales.map recalc_material).map recalc_material =
      n.materiales.map recalc_material := by
    simp only [List.map_map]
    exact List.map_congr_left (fun x _ => recalc_material_idem x)
  simp only [recalc_totals]
  rw [hM]

theorem apply_prices_idem (P : List TablaPrecio) (n : Nota)
    (h : NetsConsistent n) :
    apply_prices P (apply_prices P n) = apply_prices P n := by
  have hM : ((apply_prices P n).materiales.map
        (price_line P (apply_prices P n).tipo_operacion)).map recalc_material =
      (apply_prices P n).materiales := by
    rw [apply_prices_materiales]
    simp only [List.map_map]
    have : ∀ x ∈ n.materiales,
        (recalc_material ∘ price_line P (apply_prices P n).tipo_operacion ∘
          fun x => recalc_material (price_line P n.tipo_operacion x)) x =
        (fun x => recalc_material (price_line P n.tipo_operacion x)) x := by
      intro x hx
      show recalc_material (price_line P n.tipo_operacion
        (recalc_material (price_line P n.tipo_operacion x))) =
        recalc_material (price_line P n.tipo_operacion x)
      rw [price_line_fixed P n.tipo_operacion x (h x hx), recalc_material_idem]
    exact List.map_congr_left this
  show recalc_totals { apply_prices P n with
      materiales := (apply_prices P n).materiales.map
        (price_line P (apply_prices P n).tipo_operacion) } = apply_prices P n
  simp only [recalc_totals]
  rw [hM]
  rfl

/-- C9: `applyPrices` (which itself ends by recalculating every line and the
totals) and the recalculation operations are idempotent.  Line
recalculation and totals recalculation are unconditionally idempotent; one
application of `apply_prices` leaves every line net-consistent; and for any
net-consistent nota (every nota the service produces, since each creation
or mutation path recalculates before pricing) a repeated `apply_prices`
with the same price table returns the identical nota — identical line
subtotals and identical totals — with total net kg the sum of the line
nets and total amount the sum of the priced lines' subtotals only
(unpriced lines contribute nothing to the sum). -/
theorem c9_confirmed :
    (∀ nm : NotaMaterial,
      recalc_material (recalc_material nm) = recalc_material nm) ∧
    (∀ n : Nota, recalc_totals (recalc_totals n) = recalc_totals n) ∧
    (∀ (P : List TablaPrecio) (n : Nota), NetsConsistent (apply_prices P n)) ∧
    (∀ (P : List TablaPrecio) (n : Nota), NetsConsistent n →
      apply_prices P (apply_prices P n) = apply_prices P n) ∧
    (∀ (P : List TablaPrecio) (n : Nota),
      (apply_prices P n).total_kg_neto =
        sum_decimal ((apply_prices P n).materiales.map (fun m => m.kg_neto)) ∧
      (apply_prices P n).total_monto =
        sum_decimal ((apply_prices P n).materiales.filterMap (fun m => m.subtotal))) :=
  ⟨recalc_material_idem, recalc_totals_idem, apply_prices_consistent,
   apply_prices_idem, fun _ _ => ⟨rfl, rfl⟩⟩

/-- C9, witnessed on a concrete priced nota. -/
theorem c9_confirmed_witness :
    apply_prices [mk_precio 1 7 TipoOperacion.compra TipoCliente.regular 5 1 true]
        (apply_prices [mk_precio 1 7 TipoOperacion.compra TipoCliente.regular 5 1 true]
          (mk_nota NotaEstado.borrador TipoOperacion.compra [mk_material 1 7 10 2])) =
      apply_prices [mk_precio 1 7 TipoOperacion.compra TipoCliente.regular 5 1 true]
        (mk_nota NotaEstado.borrador TipoOperacion.compra [mk_material 1 7 10 2]) :=
  c9_confirmed.2.2.2.1 _ _ (by unfold NetsConsistent NetConsistent; decide)

/-! ## C6 — price versioning -/

theorem create_price_actives (precios : List TablaPrecio)
    (logs : List PriceChangeLog) (new_id now mat : ℕ)
    (op : TipoOperacion) (cli : TipoCliente) (precio : ℚ) :
    (create_price_version precios logs new_id now mat op cli precio).1.filter
        (fun row => row.material_id = mat ∧ row.tipo_operacion = op ∧
          row.tipo_cliente = cli ∧ row.activo = true) =
      [(create_price_version precios logs new_id now mat op cli precio).2.2] := by
  unfold create_price_version
  simp only [List.filter_append]
  have h1 : (precios.map (fun row =>
      if row.material_id = mat ∧ row.tipo_operacion = op ∧
         row.tipo_cliente = cli ∧ row.activo = true then
        { row with activo := false, vigente_hasta := some now }
      else row)).filter
      (fun row => decide (row.material_id = mat ∧ row.tipo_operacion = op ∧
        row.tipo_cliente = cli ∧ row.activo = true)) = [] := by
    rw [List.filter_eq_nil_iff]
    intro a ha
    obtain ⟨row, _, hrow⟩ := List.mem_map.mp ha
    subst hrow
    split
    · simp
    · rename_i hno
      simpa using hno
  rw [h1]
  simp

theorem create_price_lookup (precios : List TablaPrecio)
    (logs : List PriceChangeLog) (new_id now mat : ℕ)
    (op : TipoOperacion) (cli : TipoCliente) (precio : ℚ) :
    lookup_precio (create_price_version precios logs new_id now mat op cli precio).1
        mat op cli =
      some (create_price_version precios logs new_id now mat op cli precio).2.2 := by
  unfold lookup_precio
  rw [create_price_actives precios logs new_id now mat op cli precio]
  rfl

theorem create_price_table (precios : List TablaPrecio)
    (logs : List PriceChangeLog) (new_id now mat : ℕ)
    (op : TipoOperacion) (cli : TipoCliente) (precio : ℚ) :
    (create_price_version precios logs new_id now mat op cli precio).1 =
      precios.map (fun row =>
        if row.material_id = mat ∧ row.tipo_operacion = op ∧
           row.tipo_cliente = cli ∧ row.activo = true then
          { row with activo := false, vigente_hasta := some now }
        else row) ++
        [(create_price_version precios logs new_id now mat op cli precio).2.2] := rfl

theorem create_price_row_fields (precios : List TablaPrecio)
    (logs : List PriceChangeLog) (new_id now mat : ℕ)
    (op : TipoOperacion) (cli : TipoCliente) (precio : ℚ) :
    (create_price_version precios logs new_id now mat op cli precio).2.2.material_id
        = mat ∧
    (create_price_version precios logs new_id now mat op cli precio).2.2.tipo_operacion
        = op ∧
    (create_price_version precios logs new_id now mat op cli precio).2.2.tipo_cliente
        = cli ∧
    (create_price_version precios logs new_id now mat op cli precio).2.2.activo
        = true ∧
    (create_price_version precios logs new_id now mat op cli precio).2.2.precio_por_unidad
        = precio ∧
    (create_price_version precios logs new_id now mat op cli precio).2.2.version
        = (match last_version_row precios mat op cli with
           | some l => l.version + 1
           | none => 1) ∧
    (create_price_version precios logs new_id now mat op cli precio).2.1
        = logs ++
          [{ material_id := mat, tipo_operacion := op, tipo_cliente := cli
             old_precio_por_unidad :=
               (last_version_row precios mat op cli).map
                 (fun l => l.precio_por_unidad)
             new_precio_por_unidad := precio
             old_version :=
               (last_version_row precios mat op cli).map (fun l => l.version)
             new_version :=
               match last_version_row precios mat op cli with
               | some l => l.version + 1
               | none => 1 }] :=
  ⟨rfl, rfl, rfl, rfl, rfl, rfl, rfl⟩

theorem filter_deact_other (now mat : ℕ) (op : TipoOperacion) (cli : TipoCliente)
    (mat2 : ℕ) (op2 : TipoOperacion) (cli2 : TipoCliente)
    (hk : ¬(mat2 = mat ∧ op2 = op ∧ cli2 = cli)) (rest : List TablaPrecio) :
    (rest.map (fun row =>
        if row.material_id = mat ∧ row.tipo_operacion = op ∧
           row.tipo_cliente = cli ∧ row.activo = true then
          { row with activo := false, vigente_hasta := some now }
        else row)).filter
      (fun row => row.material_id = mat2 ∧ row.tipo_operacion = op2 ∧
        row.tipo_cliente = cli2 ∧ row.activo = true) =
      rest.filter (fun row => row.material_id = mat2 ∧ row.tipo_operacion = op2 ∧
        row.tipo_cliente = cli2 ∧ row.activo = true) := by
  induction rest with
  | nil => rfl
  | cons row rest2 ih =>
      simp only [List.map_cons, List.filter_cons]
      by_cases hrow : row.material_id = mat ∧ row.tipo_operacion = op ∧
          row.tipo_cliente = cli ∧ row.activo = true
      · rw [if_pos hrow]
        have hne2 : ¬(row.material_id = mat2 ∧ row.tipo_operacion = op2 ∧
            row.tipo_cliente = cli2 ∧ row.activo = true) := by
          intro hcon
          exact hk ⟨hcon.1.symm.trans hrow.1, hcon.2.1.symm.trans hrow.2.1,
            hcon.2.2.1.symm.trans hrow.2.2.1⟩
        simp only [decide_eq_true_eq]
        rw [if_neg (by simp), if_neg hne2]
        exact ih
      · rw [if_neg hrow]
        simp only [decide_eq_true_eq]
        by_cases hsel : row.material_id = mat2 ∧ row.tipo_operacion = op2 ∧
            row.tipo_cliente = cli2 ∧ row.activo = true
        · rw [if_pos hsel, if_pos hsel, ih]
        · rw [if_neg hsel, if_neg hsel]
          exact ih

theorem create_price_other_keys (precios : List TablaPrecio)
    (logs : List PriceChangeLog) (new_id now mat : ℕ)
    (op : TipoOperacion) (cli : TipoCliente) (precio : ℚ)
    (mat2 : ℕ) (op2 : TipoOperacion) (cli2 : TipoCliente)
    (hk : ¬(mat2 = mat ∧ op2 = op ∧ cli2 = cli)) :
    (create_price_version precios logs new_id now mat op cli precio).1.filter
        (fun row => row.material_id = mat2 ∧ row.tipo_operacion = op2 ∧
          row.tipo_cliente = cli2 ∧ row.activo = true) =
      precios.filter
        (fun row => row.material_id = mat2 ∧ row.tipo_operacion = op2 ∧
          row.tipo_cliente = cli2 ∧ row.activo = true) := by
  obtain ⟨f1, f2, f3, -, -, -, -⟩ :=
    create_price_row_fields precios logs new_id now mat op cli precio
  rw [create_price_table precios logs new_id now mat op cli precio]
  simp only [List.filter_append]
  have h2 : ([(create_price_version precios logs new_id now mat op cli precio).2.2].filter
      (fun row => decide (row.material_id = mat2 ∧ row.tipo_operacion = op2 ∧
        row.tipo_cliente = cli2 ∧ row.activo = true))) = [] := by
    simp only [List.filter, decide_eq_true_eq]
    split
    · rename_i hyes
      rw [f1, f2, f3] at hyes
      simp only [decide_eq_true_eq] at hyes
      exact absurd ⟨hyes.1.symm, hyes.2.1.symm, hyes.2.2.1.symm⟩ hk
    · rfl
  rw [h2, List.append_nil]
  exact filter_deact_other now mat op cli mat2 op2 cli2 hk precios

/-- C6: `createPriceVersion` — as exposed by both of its callers, which
validate the price — rejects price ≤ 0; a positive price reaches the
service, which deactivates every active row of the (material, operación,
customer-class) key, inserts the new active row at version latest+1 (or 1),
and appends exactly one PriceChangeLog entry.  Afterwards the key has
exactly one active row — the new one — and `lookupActivePrice` (the shared
highest-active-version query) returns it; rows of every other key are
untouched, so after any sequence of calls starting from a table with at
most one active row per key, at most one active row per key remains and
lookup returns the most recently created version. -/
theorem c6_confirmed :
    (∀ (precios : List TablaPrecio) (logs : List PriceChangeLog)
        (new_id now mat : ℕ) (op : TipoOperacion) (cli : TipoCliente) (precio : ℚ),
      (precio ≤ 0 →
        create_price_version_checked precios logs new_id now mat op cli precio =
          .error Err.invalidAmount) ∧
      (0 < precio →
        create_price_version_checked precios logs new_id now mat op cli precio =
          .ok (create_price_version precios logs new_id now mat op cli precio))) ∧
    (∀ (precios : List TablaPrecio) (logs : List PriceChangeLog)
        (new_id now mat : ℕ) (op : TipoOperacion) (cli : TipoCliente) (precio : ℚ),
      (create_price_version precios logs new_id now mat op cli precio).1.filter
          (fun row => row.material_id = mat ∧ row.tipo_operacion = op ∧
            row.tipo_cliente = cli ∧ row.activo = true) =
        [(create_price_version precios logs new_id now mat op cli precio).2.2] ∧
      (create_price_version precios logs new_id now mat op cli precio).2.2.activo
          = true ∧
      (create_price_version precios logs new_id now mat op cli precio).2.2.precio_por_unidad
          = precio ∧
      ((create_price_version precios logs new_id now mat op cli precio).2.2.version
          = match last_version_row precios mat op cli with
            | some l => l.version + 1
            | none => 1) ∧
      lookup_precio
          (create_price_version precios logs new_id now mat op cli precio).1
          mat op cli =
        some (create_price_version precios logs new_id now mat op cli precio).2.2 ∧
      (create_price_version precios logs new_id now mat op cli precio).2.1.length
          = logs.length + 1) ∧
    (∀ (precios : List TablaPrecio) (logs : List PriceChangeLog)
        (new_id now mat : ℕ) (op : TipoOperacion) (cli : TipoCliente) (precio : ℚ)
        (mat2 : ℕ) (op2 : TipoOperacion) (cli2 : TipoCliente),
      ¬(mat2 = mat ∧ op2 = op ∧ cli2 = cli) →
      (create_price_version precios logs new_id now mat op cli precio).1.filter
          (fun row => row.material_id = mat2 ∧ row.tipo_operacion = op2 ∧
            row.tipo_cliente = cli2 ∧ row.activo = true) =
        precios.filter
          (fun row => row.material_id = mat2 ∧ row.tipo_operacion = op2 ∧
            row.tipo_cliente = cli2 ∧ row.activo = true)) := by
  refine ⟨?_, ?_, ?_⟩
  · intro precios logs new_id now mat op cli precio
    constructor
    · intro h
      unfold create_price_version_checked
      rw [if_pos h]
    · intro h
      unfold create_price_version_checked
      rw [if_neg (not_le.mpr h)]
  · intro precios logs new_id now mat op cli precio
    obtain ⟨-, -, -, f4, f5, f6, -⟩ :=
      create_price_row_fields precios logs new_id now mat op cli precio
    refine ⟨create_price_actives precios logs new_id now mat op cli precio,
      f4, f5, f6,
      create_price_lookup precios logs new_id now mat op cli precio, ?_⟩
    rw [(create_price_row_fields precios logs new_id now mat op cli precio).2.2.2.2.2.2]
    simp
  · intro precios logs new_id now mat op cli precio mat2 op2 cli2 hk
    exact create_price_other_keys precios logs new_id now mat op cli precio
      mat2 op2 cli2 hk

/-- C6, witnessed: a zero price is rejected, a positive price creates the
version, and rows of a different material are untouched. -/
theorem c6_confirmed_witness :
    create_price_version_checked [] [] 1 0 7 TipoOperacion.compra
        TipoCliente.regular 0 = .error Err.invalidAmount ∧
    create_price_version_checked [] [] 1 0 7 TipoOperacion.compra
        TipoCliente.regular 10 =
      .ok (create_price_version [] [] 1 0 7 TipoOperacion.compra
        TipoCliente.regular 10) ∧
    (create_price_version
        [mk_precio 1 7 TipoOperacion.compra TipoCliente.regular 10 1 true]
        [] 2 1 7 TipoOperacion.compra TipoCliente.regular 12).1.filter
        (fun row => row.material_id = 8 ∧ row.tipo_operacion = TipoOperacion.compra ∧
          row.tipo_cliente = TipoCliente.regular ∧ row.activo = true) =
      ([mk_precio 1 7 TipoOperacion.compra TipoCliente.regular 10 1 true].filter
        (fun row => row.material_id = 8 ∧ row.tipo_operacion = TipoOperacion.compra ∧
          row.tipo_cliente = TipoCliente.regular ∧ row.activo = true)) :=
  ⟨(c6_confirmed.1 [] [] 1 0 7 TipoOperacion.compra TipoCliente.regular 0).1
      (by decide),
   (c6_confirmed.1 [] [] 1 0 7 TipoOperacion.compra TipoCliente.regular 10).2
      (by decide),
   c6_confirmed.2.2
      [mk_precio 1 7 TipoOperacion.compra TipoCliente.regular 10 1 true]
      [] 2 1 7 TipoOperacion.compra TipoCliente.regular 12
      8 TipoOperacion.compra TipoCliente.regular (by decide)⟩

/-! ## C4 — payment registration -/

theorem normalize_ok_bounds (nota : Nota) (m monto : ℚ)
    (h : normalize_pago_incremental nota m = .ok monto) :
    monto = m ∧ 0 < m ∧
      m ≤ (if nota.total_monto - nota.monto_pagado < 0 then 0
           else nota.total_monto - nota.monto_pagado) := by
  simp only [normalize_pago_incremental] at h
  split at h
  · cases h
  · rename_i h1
    split at h
    · rename_i hneg
      split at h
      · cases h
      · rename_i h2
        injection h with h3
        refine ⟨h3.symm, lt_of_not_le h1, ?_⟩
        rw [if_pos hneg]
        exact not_lt.mp h2
    · rename_i hneg
      split at h
      · cases h
      · rename_i h2
        injection h with h3
        refine ⟨h3.symm, lt_of_not_le h1, ?_⟩
        rw [if_neg hneg]
        exact not_lt.mp h2

theorem add_payment_ok_bounds (conts : List MovimientoContable) (nota : Nota)
    (m : ℚ) (mp : Option MetodoPago) (cf : Option ℕ) (rc : Bool)
    (r : Nota × List MovimientoContable)
    (h : add_payment conts nota m mp cf rc = .ok r) :
    0 < m ∧
      m ≤ (if nota.total_monto - nota.monto_pagado < 0 then 0
           else nota.total_monto - nota.monto_pagado) := by
  simp only [add_payment] at h
  split at h
  · cases h
  · split at h
    · cases h
    · rename_i monto hn
      obtain ⟨-, h2, h3⟩ := normalize_ok_bounds nota m monto hn
      exact ⟨h2, h3⟩

theorem edit_ok_pagado (db : DB) (n : Nota)
    (tcm : List (ℕ × TipoCliente)) (kgm : List (ℕ × ℚ × ℚ))
    (spm : List (ℕ × ℚ × ℚ)) (db2 : DB) (n2 : Nota)
    (h : edit_note_by_superadmin db n tcm kgm spm = .ok (db2, n2)) :
    n2.monto_pagado = n.monto_pagado ∧ n.monto_pagado ≤ n2.total_monto := by
  simp only [edit_note_by_superadmin] at h
  split at h
  · cases h
  · rename_i hguard
    split at h
    · split at h
      · cases h
      · injection h with h1
        obtain ⟨hdb, hn⟩ := Prod.mk.inj h1
        subst hn
        exact ⟨rfl, not_lt.mp hguard⟩
    · injection h with h1
      obtain ⟨hdb, hn⟩ := Prod.mk.inj h1
      subst hn
      exact ⟨rfl, not_lt.mp hguard⟩

/-- C4: `add_payment` fails unless the nota is APROBADA; fails with
`InvalidAmount` for amount ≤ 0; fails with `PaymentExceedsBalance` for an
amount above the zero-floored outstanding balance; fails with
`MissingAccount` when the effective method (argument, else the nota's) is
transfer or check and no account reference is given; on success it
increments `monto_pagado` by exactly the amount and leaves the total
unchanged, so 0 ≤ amount_paid ≤ total_amount is preserved by
`add_payment` and established by a successful `edit_note_by_superadmin`
(which refuses a total below the amount already paid). -/
theorem c4_confirmed :
    (∀ (conts : List MovimientoContable) (n : Nota) (m : ℚ)
        (mp : Option MetodoPago) (cf : Option ℕ) (rc : Bool),
      (n.estado ≠ NotaEstado.aprobada →
        add_payment conts n m mp cf rc = .error Err.invalidTransition) ∧
      (n.estado = NotaEstado.aprobada → m ≤ 0 →
        add_payment conts n m mp cf rc = .error Err.invalidAmount) ∧
      (n.estado = NotaEstado.aprobada → 0 < m →
        (if n.total_monto - n.monto_pagado < 0 then 0
         else n.total_monto - n.monto_pagado) < m →
        add_payment conts n m mp cf rc = .error Err.paymentExceedsBalance) ∧
      (n.estado = NotaEstado.aprobada → 0 < m →
        m ≤ (if n.total_monto - n.monto_pagado < 0 then 0
             else n.total_monto - n.monto_pagado) →
        ((mp <|> n.metodo_pago) = some MetodoPago.transferencia ∨
          (mp <|> n.metodo_pago) = some MetodoPago.cheque) →
        cf = none →
        add_payment conts n m mp cf rc = .error Err.missingAccount) ∧
      (∀ r : Nota × List MovimientoContable,
        add_payment conts n m mp cf rc = .ok r →
        r.1.monto_pagado = n.monto_pagado + m ∧
        r.1.total_monto = n.total_monto) ∧
      (∀ r : Nota × List MovimientoContable,
        0 ≤ n.monto_pagado → n.monto_pagado ≤ n.total_monto →
        add_payment conts n m mp cf rc = .ok r →
        0 ≤ r.1.monto_pagado ∧ r.1.monto_pagado ≤ r.1.total_monto)) ∧
    (∀ (db : DB) (n : Nota) (tcm : List (ℕ × TipoCliente))
        (kgm : List (ℕ × ℚ × ℚ)) (spm : List (ℕ × ℚ × ℚ))
        (db2 : DB) (n2 : Nota),
      0 ≤ n.monto_pagado →
      edit_note_by_superadmin db n tcm kgm spm = .ok (db2, n2) →
      0 ≤ n2.monto_pagado ∧ n2.monto_pagado ≤ n2.total_monto) := by
  constructor
  · intro conts n m mp cf rc
    refine ⟨?_, ?_, ?_, ?_, ?_, ?_⟩
    · intro h
      unfold add_payment
      rw [if_pos h]
    · intro h hm
      unfold add_payment
      rw [if_neg (by simp [h])]
      have hn : normalize_pago_incremental n m = .error Err.invalidAmount := by
        simp only [normalize_pago_incremental]
        rw [if_pos hm]
      rw [hn]
    · intro h hm0 hex
      unfold add_payment
      rw [if_neg (by simp [h])]
      have hn : normalize_pago_incremental n m =
          .error Err.paymentExceedsBalance := by
        simp only [normalize_pago_incremental]
        rw [if_neg (not_le.mpr hm0), if_pos hex]
      rw [hn]
    · intro h hm0 hle hmeth hcf
      unfold add_payment
      rw [if_neg (by simp [h])]
      have hn : normalize_pago_incremental n m = .ok m := by
        simp only [normalize_pago_incremental]
        rw [if_neg (not_le.mpr hm0), if_neg (not_lt.mpr hle)]
      rw [hn]
      exact if_pos ⟨hmeth, hcf⟩
    · intro r hok
      exact add_payment_ok_monto conts n m mp cf rc r hok
    · intro r h0 hpt hok
      obtain ⟨hm, hle⟩ := add_payment_ok_bounds conts n m mp cf rc r hok
      obtain ⟨hpaid, htot⟩ := add_payment_ok_monto conts n m mp cf rc r hok
      have hs : ¬(n.total_monto - n.monto_pagado < 0) := by linarith
      rw [if_neg hs] at hle
      constructor
      · rw [hpaid]; linarith
      · rw [hpaid, htot]; linarith
  · intro db n tcm kgm spm db2 n2 h0 hok
    obtain ⟨h1, h2⟩ := edit_ok_pagado db n tcm kgm spm db2 n2 hok
    constructor
    · rw [h1]; exact h0
    · rw [h1]; exact h2

/-- C4, witnessed at concrete notas and payments. -/
theorem c4_confirmed_witness :
    add_payment [] (mk_nota NotaEstado.borrador TipoOperacion.compra [])
        50 none none true = .error Err.invalidTransition ∧
    add_payment [] nota4w 0 none none true = .error Err.invalidAmount ∧
    add_payment [] nota4w 200 none none true =
      .error Err.paymentExceedsBalance ∧
    add_payment [] nota4w 50 (some MetodoPago.cheque) none true =
      .error Err.missingAccount ∧
    (nota4r.monto_pagado = nota4w.monto_pagado + 50 ∧
      nota4r.total_monto = nota4w.total_monto) ∧
    (0 ≤ nota4r.monto_pagado ∧ nota4r.monto_pagado ≤ nota4r.total_monto) ∧
    (0 ≤ (mk_nota NotaEstado.borrador TipoOperacion.compra []).monto_pagado ∧
      (mk_nota NotaEstado.borrador TipoOperacion.compra []).monto_pagado ≤
        (mk_nota NotaEstado.borrador TipoOperacion.compra []).total_monto) := by
  refine ⟨?_, ?_, ?_, ?_, ?_, ?_, ?_⟩
  · exact (c4_confirmed.1 [] _ 50 none none true).1 (by decide)
  · exact (c4_confirmed.1 [] nota4w 0 none none true).2.1 rfl (by decide)
  · exact (c4_confirmed.1 [] nota4w 200 none none true).2.2.1 rfl
      (by decide) (by decide)
  · exact (c4_confirmed.1 [] nota4w 50 (some MetodoPago.cheque) none
      true).2.2.2.1 rfl (by decide) (by decide) (by decide) rfl
  · exact (c4_confirmed.1 [] nota4w 50 none none true).2.2.2.2.1
      (nota4r, [⟨some 1, 1, ContTipo.pago, 50, none, none⟩]) (by decide)
  · exact (c4_confirmed.1 [] nota4w 50 none none true).2.2.2.2.2
      (nota4r, [⟨some 1, 1, ContTipo.pago, 50, none, none⟩])
      (by decide) (by decide) (by decide)
  · exact c4_confirmed.2 (mk_db [] [])
      (mk_nota NotaEstado.borrador TipoOperacion.compra []) [] [] []
      (mk_db [] []) (mk_nota NotaEstado.borrador TipoOperacion.compra [])
      (by decide) (by decide)

/-! ## C7: the accounting ledger is append-only, but amounts are signed -/
theorem registrar_contable_append (cs : List MovimientoContable) (n : Nota)
    (mp : Option MetodoPago) (cfo : Option ℕ) (mo : Option ℚ)
    (t : Option ContTipo) :
    ∃ l, registrar_movimiento_contable cs n mp cfo mo t = cs ++ l :=
  ⟨_, rfl⟩

theorem reversos_pagos_append (nota : Nota) (pagos : List NotaPago) :
    ∀ cs : List MovimientoContable,
      ∃ l, registrar_reversos_pagos nota cs pagos = cs ++ l := by
  induction pagos with
  | nil => intro cs; exact ⟨[], by simp [registrar_reversos_pagos]⟩
  | cons q rest ih =>
      intro cs
      obtain ⟨l, hl⟩ := ih (registrar_movimiento_contable cs nota
        (q.metodo_pago <|> nota.metodo_pago) q.cuenta_financiera
        (some (q.monto * (-1))) (some ContTipo.reverso_pago))
      refine ⟨[{ nota_id := some nota.id, sucursal_id := nota.sucursal_id
                 tipo := ContTipo.reverso_pago, monto := q.monto * (-1)
                 metodo_pago := (q.metodo_pago <|> nota.metodo_pago) <|>
                   nota.metodo_pago
                 cuenta_financiera := q.cuenta_financiera <|>
                   cuenta_ref nota.cuenta_financiera_id }] ++ l, ?_⟩
      rw [registrar_reversos_pagos, hl, registrar_movimiento_contable]
      simp

theorem reversos_pagos_mem (nota : Nota) (pagos : List NotaPago) :
    ∀ cs, ∀ p ∈ pagos, ∃ mv ∈ registrar_reversos_pagos nota cs pagos,
      mv.tipo = ContTipo.reverso_pago ∧ mv.monto = p.monto * (-1) := by
  induction pagos with
  | nil => intro cs p hp; cases hp
  | cons q rest ih =>
      intro cs p hp
      rcases List.mem_cons.mp hp with h | h
      · subst h
        obtain ⟨l, hl⟩ := reversos_pagos_append nota rest
          (registrar_movimiento_contable cs nota
            (p.metodo_pago <|> nota.metodo_pago) p.cuenta_financiera
            (some (p.monto * (-1))) (some ContTipo.reverso_pago))
        rw [registrar_reversos_pagos, hl]
        refine ⟨{ nota_id := some nota.id, sucursal_id := nota.sucursal_id
                  tipo := ContTipo.reverso_pago, monto := p.monto * (-1)
                  metodo_pago := (p.metodo_pago <|> nota.metodo_pago) <|>
                    nota.metodo_pago
                  cuenta_financiera := p.cuenta_financiera <|>
                    cuenta_ref nota.cuenta_financiera_id }, ?_, rfl, rfl⟩
        rw [registrar_movimiento_contable]
        simp
      · exact ih _ p h

theorem cancel_ok_conts (db : DB) (n : Nota) (ca : Option String)
    (db2 : DB) (n2 : Nota)
    (h : cancel_approved_note db n ca = .ok (db2, n2)) :
    db2.movimientos_cont =
      registrar_reversos_pagos n
        (registrar_movimiento_contable
          (if has_base_contable_movement db.movimientos_cont n.id
              (base_cont_tipo n.tipo_operacion) then db.movimientos_cont
           else
             registrar_movimiento_contable db.movimientos_cont n
               n.metodo_pago (cuenta_ref n.cuenta_financiera_id) none
               (some (base_cont_tipo n.tipo_operacion)))
          n n.metodo_pago (cuenta_ref n.cuenta_financiera_id)
          (some (n.total_monto * (-1))) (some ContTipo.reverso))
        n.pagos := by
  simp only [cancel_approved_note] at h
  split at h
  · cases h
  · split at h
    · cases h
    · injection h with h1
      obtain ⟨hdb, hn⟩ := Prod.mk.inj h1
      rw [← hdb]

theorem add_payment_conts_append (conts : List MovimientoContable) (nota : Nota)
    (m : ℚ) (mp : Option MetodoPago) (cf : Option ℕ) (rc : Bool)
    (r : Nota × List MovimientoContable)
    (h : add_payment conts nota m mp cf rc = .ok r) :
    ∃ l, r.2 = conts ++ l := by
  simp only [add_payment] at h
  split at h
  · cases h
  · split at h
    · cases h
    · split at h
      · cases h
      · injection h with h1
        rw [← h1]
        split
        · exact ⟨_, rfl⟩
        · exact ⟨[], by simp⟩

theorem approve_ok_conts_append (db : DB) (n : Nota)
    (tcm : List (ℕ × TipoCliente)) (ca : Option String)
    (mp : Option MetodoPago) (cf : Option ℕ) (mto : Option ℚ)
    (db2 : DB) (n2 : Nota)
    (h : approve_note db n tcm ca mp cf mto = .ok (db2, n2)) :
    ∃ l, db2.movimientos_cont = db.movimientos_cont ++ l := by
  simp only [approve_note] at h
  split at h
  · cases h
  · split at h
    · cases h
    · split at h
      · cases h
      · split at h
        · split at h
          · split at h
            · cases h
            · rename_i r he
              injection h with h1
              obtain ⟨hdb, hn⟩ := Prod.mk.inj h1
              obtain ⟨l2, hl2⟩ := add_payment_conts_append _ _ _ _ _ _ r he
              subst hdb
              dsimp only
              rw [hl2]
              split
              · exact ⟨l2, rfl⟩
              · rw [registrar_movimiento_contable, List.append_assoc]
                exact ⟨_, rfl⟩
          · injection h with h1
            obtain ⟨hdb, hn⟩ := Prod.mk.inj h1
            subst hdb
            dsimp only
            split
            · exact ⟨[], by simp⟩
            · exact ⟨_, rfl⟩
        · injection h with h1
          obtain ⟨hdb, hn⟩ := Prod.mk.inj h1
          subst hdb
          dsimp only
          split
          · exact ⟨[], by simp⟩
          · exact ⟨_, rfl⟩

theorem registrar_mem_last (cs : List MovimientoContable) (n : Nota)
    (mp : Option MetodoPago) (cfo : Option ℕ) (m : ℚ) (t : ContTipo) :
    ∃ mv ∈ registrar_movimiento_contable cs n mp cfo (some m) (some t),
      mv.tipo = t ∧ mv.monto = m := by
  refine ⟨{ nota_id := some n.id, sucursal_id := n.sucursal_id
            tipo := t, monto := m
            metodo_pago := mp <|> n.metodo_pago
            cuenta_financiera := cfo <|> cuenta_ref n.cuenta_financiera_id },
          ?_, rfl, rfl⟩
  rw [registrar_movimiento_contable]
  simp

theorem mem_reversos_pagos_of_mem (n : Nota) (pagos : List NotaPago)
    (cs : List MovimientoContable) (mv : MovimientoContable)
    (hmv : mv ∈ cs) : mv ∈ registrar_reversos_pagos n cs pagos := by
  obtain ⟨l, hl⟩ := reversos_pagos_append n pagos cs
  rw [hl]
  exact List.mem_append_left l hmv

theorem cancel_ok_conts_append (db : DB) (n : Nota) (ca : Option String)
    (db2 : DB) (n2 : Nota)
    (h : cancel_approved_note db n ca = .ok (db2, n2)) :
    ∃ l, db2.movimientos_cont = db.movimientos_cont ++ l := by
  rw [cancel_ok_conts db n ca db2 n2 h]
  obtain ⟨l1, hl1⟩ : ∃ l1,
      (if has_base_contable_movement db.movimientos_cont n.id
          (base_cont_tipo n.tipo_operacion) then db.movimientos_cont
       else
         registrar_movimiento_contable db.movimientos_cont n
           n.metodo_pago (cuenta_ref n.cuenta_financiera_id) none
           (some (base_cont_tipo n.tipo_operacion))) =
        db.movimientos_cont ++ l1 := by
    split
    · exact ⟨[], by simp⟩
    · exact ⟨_, rfl⟩
  rw [hl1]
  obtain ⟨l2, hl2⟩ := registrar_contable_append (db.movimientos_cont ++ l1) n
    n.metodo_pago (cuenta_ref n.cuenta_financiera_id)
    (some (n.total_monto * (-1))) (some ContTipo.reverso)
  rw [hl2]
  obtain ⟨l3, hl3⟩ := reversos_pagos_append n n.pagos
    ((db.movimientos_cont ++ l1) ++ l2)
  rw [hl3]
  exact ⟨l1 ++ l2 ++ l3, by simp⟩

theorem cancel_ok_signed (db : DB) (n : Nota) (ca : Option String)
    (db2 : DB) (n2 : Nota)
    (h : cancel_approved_note db n ca = .ok (db2, n2)) :
    (∃ mv ∈ db2.movimientos_cont,
        mv.tipo = ContTipo.reverso ∧ mv.monto = n.total_monto * (-1)) ∧
    ∀ p ∈ n.pagos, ∃ mv ∈ db2.movimientos_cont,
        mv.tipo = ContTipo.reverso_pago ∧ mv.monto = p.monto * (-1) := by
  have hshape := cancel_ok_conts db n ca db2 n2 h
  constructor
  · rw [hshape]
    obtain ⟨mv, hm, hp⟩ := registrar_mem_last
      (if has_base_contable_movement db.movimientos_cont n.id
          (base_cont_tipo n.tipo_operacion) then db.movimientos_cont
       else
         registrar_movimiento_contable db.movimientos_cont n
           n.metodo_pago (cuenta_ref n.cuenta_financiera_id) none
           (some (base_cont_tipo n.tipo_operacion)))
      n n.metodo_pago (cuenta_ref n.cuenta_financiera_id)
      (n.total_monto * (-1)) ContTipo.reverso
    exact ⟨mv, mem_reversos_pagos_of_mem n n.pagos _ mv hm, hp⟩
  · intro p hp
    rw [hshape]
    exact reversos_pagos_mem n n.pagos _ p hp

theorem edit_ok_conts_append (db : DB) (n : Nota)
    (tcm : List (ℕ × TipoCliente)) (kom spm : List (ℕ × ℚ × ℚ))
    (db2 : DB) (n2 : Nota)
    (h : edit_note_by_superadmin db n tcm kom spm = .ok (db2, n2)) :
    ∃ l, db2.movimientos_cont = db.movimientos_cont ++ l := by
  simp only [edit_note_by_superadmin] at h
  split at h
  · cases h
  · split at h
    · split at h
      · cases h
      · injection h with h1
        obtain ⟨hdb, hn⟩ := Prod.mk.inj h1
        subst hdb
        dsimp only
        split
        · exact ⟨_, rfl⟩
        · exact ⟨[], by simp⟩
    · injection h with h1
      obtain ⟨hdb, hn⟩ := Prod.mk.inj h1
      rw [← hdb]
      exact ⟨[], by simp⟩

/-- C7 (counterexample): cancelling an approved purchase nota with total
950 — whose ledger lacks the base movement — back-fills the base row with
amount 950 and then appends the reversal row with the **negative** stored
amount −950: accounting amounts are not unsigned magnitudes. -/
theorem c7_counterexample :
    (cancel_approved_note dbC7 notaC7 none).map
      (fun r => r.1.movimientos_cont.map (fun mv => mv.monto)) =
    .ok [950, -950] := by decide

/-- C7 (amended): the accounting table is append-only — approval,
cancellation, superadmin edit, manual stock adjustment and payment
recording each extend `movimientos_cont` without mutating or deleting
existing rows — but amounts are stored **signed**, not as unsigned
magnitudes: a successful cancellation appends a `reverso` row whose stored
amount is the negated nota total and one `reverso_pago` row per payment
whose stored amount is the negated payment amount. -/
theorem c7_amended :
    (∀ db n tcm ca mp cf mto db2 n2,
        approve_note db n tcm ca mp cf mto = .ok (db2, n2) →
        ∃ l, db2.movimientos_cont = db.movimientos_cont ++ l) ∧
    (∀ db n ca db2 n2,
        cancel_approved_note db n ca = .ok (db2, n2) →
        ∃ l, db2.movimientos_cont = db.movimientos_cont ++ l) ∧
    (∀ db n tcm kom spm db2 n2,
        edit_note_by_superadmin db n tcm kom spm = .ok (db2, n2) →
        ∃ l, db2.movimientos_cont = db.movimientos_cont ++ l) ∧
    (∀ db suc mat q, ∃ l,
        (ajustar_stock db suc mat q).movimientos_cont =
          db.movimientos_cont ++ l) ∧
    (∀ conts n m mp cf rc r,
        add_payment conts n m mp cf rc = .ok r →
        ∃ l, r.2 = conts ++ l) ∧
    (∀ db n ca db2 n2,
        cancel_approved_note db n ca = .ok (db2, n2) →
        (∃ mv ∈ db2.movimientos_cont,
            mv.tipo = ContTipo.reverso ∧ mv.monto = n.total_monto * (-1)) ∧
        ∀ p ∈ n.pagos, ∃ mv ∈ db2.movimientos_cont,
            mv.tipo = ContTipo.reverso_pago ∧ mv.monto = p.monto * (-1)) := by
  refine ⟨?_, ?_, ?_, ?_, ?_, ?_⟩
  · intro db n tcm ca mp cf mto db2 n2 h
    exact approve_ok_conts_append db n tcm ca mp cf mto db2 n2 h
  · intro db n ca db2 n2 h
    exact cancel_ok_conts_append db n ca db2 n2 h
  · intro db n tcm kom spm db2 n2 h
    exact edit_ok_conts_append db n tcm kom spm db2 n2 h
  · intro db suc mat q
    exact ⟨_, rfl⟩
  · intro conts n m mp cf rc r h
    exact add_payment_conts_append conts n m mp cf rc r h
  · intro db n ca db2 n2 h
    exact cancel_ok_signed db n ca db2 n2 h

/-- Concrete instance of the C7 amended theorem: the cancellation of
`notaC7` appends a reversal row storing the negated total −950. -/
theorem c7_amended_witness :
    ∃ mv ∈ dbC7r.movimientos_cont,
      mv.tipo = ContTipo.reverso ∧ mv.monto = notaC7.total_monto * (-1) :=
  (c7_amended.2.2.2.2.2 dbC7 notaC7 none dbC7r notaC7r (by decide)).1

/-! ## C10: transfers leave the financial ledger untouched -/
theorem recalc_totals_pagos (n : Nota) : (recalc_totals n).pagos = n.pagos := rfl

theorem build_transfer_note_fields (dm : List ℕ) (nid sid : ℕ)
    (op : TipoOperacion) (payload : List TransferLine) (n : Nota)
    (h : build_transfer_note dm nid sid op payload = .ok n) :
    n.estado = NotaEstado.aprobada ∧ n.monto_pagado = 0 ∧
    n.metodo_pago = none ∧ n.pagos = [] := by
  simp only [build_transfer_note] at h
  split at h
  · cases h
  · injection h with h1
    subst h1
    exact ⟨rfl, rfl, rfl, rfl⟩

/-- C10: a successful inter-branch transfer appends no accounting movement
— the resulting database's ledger equals the original — and both notas are
born approved with a zero paid amount, no payment method and an empty
payment list, so the financial ledger and payment register are unchanged. -/
theorem c10_confirmed (db : DB) (origen destino : ℕ)
    (payload : List TransferLine) (admin_id : Option ℕ)
    (com onom dnom : Option String) (db2 : DB) (ns ne : Nota)
    (h : create_transfer_notes db origen destino payload admin_id com onom
        dnom = .ok (db2, ns, ne)) :
    db2.movimientos_cont = db.movimientos_cont ∧
    ns.estado = NotaEstado.aprobada ∧ ne.estado = NotaEstado.aprobada ∧
    ns.monto_pagado = 0 ∧ ne.monto_pagado = 0 ∧
    ns.metodo_pago = none ∧ ne.metodo_pago = none ∧
    ns.pagos = [] ∧ ne.pagos = [] := by
  simp only [create_transfer_notes] at h
  split at h
  · cases h
  · split at h
    · cases h
    · split at h
      · cases h
      · split at h
        · cases h
        · rename_i nota_salida hs
          split at h
          · cases h
          · rename_i nota_entrada he
            split at h
            · cases h
            · rename_i invs0 hv
              injection h with h1
              obtain ⟨hdb, hrest⟩ := Prod.mk.inj h1
              obtain ⟨hns, hne⟩ := Prod.mk.inj hrest
              obtain ⟨hs1, hs2, hs3, hs4⟩ :=
                build_transfer_note_fields _ _ _ _ _ _ hs
              obtain ⟨he1, he2, he3, he4⟩ :=
                build_transfer_note_fields _ _ _ _ _ _ he
              subst hdb hns hne
              exact ⟨rfl, hs1, he1, hs2, he2, hs3, he3, hs4, he4⟩

/-- Concrete instance of C10: the transfer of 10 kg of material 7 from
branch 1 to branch 2 leaves the (empty) ledger empty and both notas
unpaid. -/
theorem c10_confirmed_witness :
    dbC10r.movimientos_cont = dbC10.movimientos_cont ∧
    nsC10.estado = NotaEstado.aprobada ∧ neC10.estado = NotaEstado.aprobada ∧
    nsC10.monto_pagado = 0 ∧ neC10.monto_pagado = 0 ∧
    nsC10.metodo_pago = none ∧ neC10.metodo_pago = none ∧
    nsC10.pagos = [] ∧ neC10.pagos = [] :=
  c10_confirmed dbC10 1 2 payloadC10 (some 1) none none none dbC10r nsC10 neC10
    (by decide)

/-! ## C3: stock non-negativity, clamping, refusal and the sale pre-check -/
theorem find_inventario_append (l1 l2 : List Inventario) (s m : ℕ) :
    find_inventario (l1 ++ l2) s m =
      (find_inventario l1 s m).or (find_inventario l2 s m) := by
  simp [find_inventario, List.find?_append]

theorem stockOf_append_zero (invs : List Inventario) (i : Inventario)
    (hz : i.stock_actual = 0) (s m : ℕ) :
    stockOf (invs ++ [i]) s m = stockOf invs s m := by
  unfold stockOf
  rw [find_inventario_append]
  cases hc : find_inventario invs s m with
  | some inv => rfl
  | none =>
      simp only [Option.none_or]
      by_cases hik : i.sucursal_id = s ∧ i.material_id = m
      · simp [find_inventario, List.find?, hik.1, hik.2, hz]
      · simp [find_inventario, List.find?, hik]

theorem get_or_create_snd (invs : List Inventario) (suc mat : ℕ) :
    (get_or_create_inventario invs suc mat).2.stock_actual =
      stockOf invs suc mat := by
  unfold get_or_create_inventario stockOf
  split
  · rename_i inv hf
    rw [hf]
    rfl
  · rename_i hf
    rw [hf]
    rfl

theorem get_or_create_fst_stockOf (invs : List Inventario) (suc mat s m : ℕ) :
    stockOf (get_or_create_inventario invs suc mat).1 s m =
      stockOf invs s m := by
  unfold get_or_create_inventario
  split
  · rfl
  · exact stockOf_append_zero invs _ rfl s m

theorem get_or_create_find_self (invs : List Inventario) (suc mat : ℕ) :
    find_inventario (get_or_create_inventario invs suc mat).1 suc mat ≠
      none := by
  unfold get_or_create_inventario
  split
  · rename_i inv hf
    simp [hf]
  · rename_i hf
    rw [find_inventario_append, hf]
    simp [find_inventario, List.find?]

theorem get_or_create_WF (invs : List Inventario) (suc mat : ℕ)
    (h : WFStocks invs) :
    WFStocks (get_or_create_inventario invs suc mat).1 := by
  unfold get_or_create_inventario
  split
  · exact h
  · intro i hi
    rcases List.mem_append.mp hi with hl | hr
    · exact h i hl
    · rw [List.mem_singleton.mp hr]

theorem set_stock_stockOf_self (invs : List Inventario) (s m : ℕ) (q : ℚ)
    (h : find_inventario invs s m ≠ none) :
    stockOf (set_stock invs s m q) s m = q := by
  induction invs with
  | nil => simp [find_inventario, List.find?] at h
  | cons i rest ih =>
      by_cases hk : i.sucursal_id = s ∧ i.material_id = m
      · unfold set_stock
        rw [if_pos hk]
        simp [stockOf, find_inventario, List.find?, hk.1, hk.2]
      · unfold set_stock
        rw [if_neg hk]
        have h2 : find_inventario rest s m ≠ none := by
          simpa [find_inventario, List.find?, hk] using h
        simpa [stockOf, find_inventario, List.find?, hk] using ih h2

theorem set_stock_stockOf_other (invs : List Inventario) (s m : ℕ) (q : ℚ)
    (s2 m2 : ℕ) (h : ¬ (s2 = s ∧ m2 = m)) :
    stockOf (set_stock invs s m q) s2 m2 = stockOf invs s2 m2 := by
  induction invs with
  | nil => rfl
  | cons i rest ih =>
      by_cases hk : i.sucursal_id = s ∧ i.material_id = m
      · unfold set_stock
        rw [if_pos hk]
        have h1 : ¬ (i.sucursal_id = s2 ∧ i.material_id = m2) := by
          intro hcon
          exact h ⟨hcon.1.symm.trans hk.1, hcon.2.symm.trans hk.2⟩
        simp [stockOf, find_inventario, List.find?, h1]
      · unfold set_stock
        rw [if_neg hk]
        by_cases hik : i.sucursal_id = s2 ∧ i.material_id = m2
        · simp [stockOf, find_inventario, List.find?, hik.1, hik.2]
        · simpa [stockOf, find_inventario, List.find?, hik] using ih

theorem set_stock_WF (invs : List Inventario) (s m : ℕ) (q : ℚ)
    (hq : 0 ≤ q) (h : WFStocks invs) : WFStocks (set_stock invs s m q) := by
  induction invs with
  | nil => intro i hi; cases hi
  | cons i rest ih =>
      unfold set_stock
      split
      · intro j hj
        rcases List.mem_cons.mp hj with h1 | h2
        · rw [h1]; exact hq
        · exact h j (List.mem_cons_of_mem i h2)
      · intro j hj
        rcases List.mem_cons.mp hj with h1 | h2
        · rw [h1]; exact h i (List.mem_cons_self i rest)
        · exact ih (fun k hk => h k (List.mem_cons_of_mem i hk)) j h2

theorem registrar_inv_fst_stockOf_self (invs : List Inventario)
    (movs : List InventarioMovimiento) (n : Nota) (nm : NotaMaterial) :
    stockOf (registrar_movimiento_inventario invs movs n nm).1
        n.sucursal_id nm.material_id =
      (if stockOf invs n.sucursal_id nm.material_id +
          (if n.tipo_operacion = TipoOperacion.compra then nm.kg_neto
           else -nm.kg_neto) < 0 then 0
       else stockOf invs n.sucursal_id nm.material_id +
          (if n.tipo_operacion = TipoOperacion.compra then nm.kg_neto
           else -nm.kg_neto)) := by
  simp only [registrar_movimiento_inventario]
  rw [set_stock_stockOf_self _ _ _ _
    (get_or_create_find_self invs n.sucursal_id nm.material_id)]
  rw [get_or_create_snd]
  cases hop : n.tipo_operacion <;> simp [hop]

theorem registrar_inv_fst_stockOf_other (invs : List Inventario)
    (movs : List InventarioMovimiento) (n : Nota) (nm : NotaMaterial)
    (s m : ℕ) (h : ¬ (s = n.sucursal_id ∧ m = nm.material_id)) :
    stockOf (registrar_movimiento_inventario invs movs n nm).1 s m =
      stockOf invs s m := by
  simp only [registrar_movimiento_inventario]
  rw [set_stock_stockOf_other _ _ _ _ _ _ h, get_or_create_fst_stockOf]

theorem clamp_nonneg (a : ℚ) : 0 ≤ if a < 0 then 0 else a := by
  split
  · exact le_refl 0
  · rename_i h
    exact not_lt.mp h

theorem registrar_inv_fst_WF (invs : List Inventario)
    (movs : List InventarioMovimiento) (n : Nota) (nm : NotaMaterial)
    (h : WFStocks invs) :
    WFStocks (registrar_movimiento_inventario invs movs n nm).1 := by
  simp only [registrar_movimiento_inventario]
  apply set_stock_WF
  · exact clamp_nonneg _
  · exact get_or_create_WF invs _ _ h

theorem registrar_lineas_fst_WF (n : Nota) :
    ∀ ms : List NotaMaterial,
      ∀ st : List Inventario × List InventarioMovimiento,
      WFStocks st.1 → WFStocks (registrar_lineas n st ms).1 := by
  intro ms
  induction ms with
  | nil => intro st h; exact h
  | cons nm rest ih =>
      intro st h
      exact ih (registrar_movimiento_inventario st.1 st.2 n nm)
        (registrar_inv_fst_WF st.1 st.2 n nm h)

theorem validar_lineas_ok_stockOf (suc : ℕ) :
    ∀ ms : List NotaMaterial, ∀ acc acc2 : List Inventario,
      validar_lineas suc acc ms = .ok acc2 →
      ∀ s m, stockOf acc2 s m = stockOf acc s m := by
  intro ms
  induction ms with
  | nil =>
      intro acc acc2 h s m
      injection h with h1
      rw [h1]
  | cons nm rest ih =>
      intro acc acc2 h s m
      simp only [validar_lineas] at h
      split at h
      · cases h
      · rw [ih _ _ h s m, get_or_create_fst_stockOf]

theorem validar_lineas_ok_WF (suc : ℕ) :
    ∀ ms : List NotaMaterial, ∀ acc acc2 : List Inventario,
      validar_lineas suc acc ms = .ok acc2 →
      WFStocks acc → WFStocks acc2 := by
  intro ms
  induction ms with
  | nil =>
      intro acc acc2 h hw
      injection h with h1
      rw [← h1]
      exact hw
  | cons nm rest ih =>
      intro acc acc2 h hw
      simp only [validar_lineas] at h
      split at h
      · cases h
      · exact ih _ _ h (get_or_create_WF acc suc nm.material_id hw)

theorem validar_lineas_fails (suc : ℕ) :
    ∀ ms : List NotaMaterial, ∀ acc : List Inventario,
      (∃ nm ∈ ms, stockOf acc suc nm.material_id < nm.kg_neto) →
      validar_lineas suc acc ms = .error Err.insufficientStock := by
  intro ms
  induction ms with
  | nil =>
      intro acc h
      obtain ⟨nm, hmem, _⟩ := h
      cases hmem
  | cons nm rest ih =>
      intro acc h
      simp only [validar_lineas]
      split
      · rfl
      · rename_i hpass
        rcases h with ⟨bad, hmem, hbad⟩
        rcases List.mem_cons.mp hmem with h1 | h2
        · subst h1
          rw [get_or_create_snd] at hpass
          exact absurd hbad (by simpa using hpass)
        · apply ih
          refine ⟨bad, h2, ?_⟩
          rw [get_or_create_fst_stockOf]
          exact hbad

theorem validar_stock_ok_WF (invs : List Inventario) (nota : Nota)
    (invs0 : List Inventario)
    (h : validar_stock_para_venta invs nota = .ok invs0)
    (hw : WFStocks invs) : WFStocks invs0 := by
  simp only [validar_stock_para_venta] at h
  split at h
  · injection h with h1
    rw [← h1]
    exact hw
  · exact validar_lineas_ok_WF _ _ _ _ h hw

theorem revertir_linea_ok_WF (n : Nota)
    (st st2 : List Inventario × List InventarioMovimiento) (nm : NotaMaterial)
    (h : revertir_linea n st nm = .ok st2) (hw : WFStocks st.1) :
    WFStocks st2.1 := by
  simp only [revertir_linea] at h
  split at h
  · split at h
    · cases h
    · rename_i hneg
      injection h with h1
      rw [← h1]
      exact set_stock_WF _ _ _ _ (not_lt.mp hneg) (get_or_create_WF st.1 _ _ hw)
  · split at h
    · cases h
    · rename_i hneg
      injection h with h1
      rw [← h1]
      exact set_stock_WF _ _ _ _ (not_lt.mp hneg) (get_or_create_WF st.1 _ _ hw)

theorem revertir_lineas_ok_WF (n : Nota) :
    ∀ ms : List NotaMaterial,
      ∀ st st2 : List Inventario × List InventarioMovimiento,
      revertir_lineas n st ms = .ok st2 → WFStocks st.1 → WFStocks st2.1 := by
  intro ms
  induction ms with
  | nil =>
      intro st st2 h hw
      injection h with h1
      rw [← h1]
      exact hw
  | cons nm rest ih =>
      intro st st2 h hw
      simp only [revertir_lineas] at h
      split at h
      · cases h
      · rename_i st1 h1
        exact ih st1 st2 h (revertir_linea_ok_WF n st st1 nm h1 hw)

theorem ajustar_linea_ok_WF (n : Nota) (okm : List (ℕ × ℚ))
    (st st2 : List Inventario × List InventarioMovimiento) (nm : NotaMaterial)
    (h : ajustar_linea n okm st nm = .ok st2) (hw : WFStocks st.1) :
    WFStocks st2.1 := by
  simp only [ajustar_linea] at h
  split at h
  · injection h with h1
    rw [← h1]
    exact hw
  · split at h
    · split at h
      · cases h
      · rename_i hneg
        injection h with h1
        rw [← h1]
        exact set_stock_WF _ _ _ _ (not_lt.mp hneg) (get_or_create_WF st.1 _ _ hw)
    · split at h
      · cases h
      · rename_i hneg
        injection h with h1
        rw [← h1]
        exact set_stock_WF _ _ _ _ (not_lt.mp hneg) (get_or_create_WF st.1 _ _ hw)

theorem ajustar_lineas_ok_WF (n : Nota) (okm : List (ℕ × ℚ)) :
    ∀ ms : List NotaMaterial,
      ∀ st st2 : List Inventario × List InventarioMovimiento,
      ajustar_lineas n okm st ms = .ok st2 → WFStocks st.1 → WFStocks st2.1 := by
  intro ms
  induction ms with
  | nil =>
      intro st st2 h hw
      injection h with h1
      rw [← h1]
      exact hw
  | cons nm rest ih =>
      intro st st2 h hw
      simp only [ajustar_lineas] at h
      split at h
      · cases h
      · rename_i st1 h1
        exact ih st1 st2 h (ajustar_linea_ok_WF n okm st st1 nm h1 hw)

theorem revertir_linea_refuses (n : Nota)
    (st : List Inventario × List InventarioMovimiento) (nm : NotaMaterial)
    (h : stockOf st.1 n.sucursal_id nm.material_id +
        (if n.tipo_operacion = TipoOperacion.compra then -nm.kg_neto
         else nm.kg_neto) < 0) :
    revertir_linea n st nm = .error Err.insufficientStock := by
  simp only [revertir_linea]
  rw [if_pos (by rw [get_or_create_snd]; exact h)]

theorem ajustar_linea_refuses (n : Nota) (okm : List (ℕ × ℚ))
    (st : List Inventario × List InventarioMovimiento) (nm : NotaMaterial)
    (hd : nm.kg_neto - ((okm.lookup nm.id).getD 0) ≠ 0)
    (h : stockOf st.1 n.sucursal_id nm.material_id +
        (if n.tipo_operacion = TipoOperacion.compra
         then nm.kg_neto - ((okm.lookup nm.id).getD 0)
         else -(nm.kg_neto - ((okm.lookup nm.id).getD 0))) < 0) :
    ajustar_linea n okm st nm = .error Err.insufficientStock := by
  simp only [ajustar_linea]
  rw [if_neg hd]
  rw [if_pos (by rw [get_or_create_snd]; exact h)]

theorem ajustar_stock_WF (db : DB) (s m : ℕ) (q : ℚ)
    (hw : WFStocks db.inventarios) :
    WFStocks (ajustar_stock db s m q).inventarios := by
  simp only [ajustar_stock]
  exact set_stock_WF _ _ _ _ (clamp_nonneg _) (get_or_create_WF _ _ _ hw)

theorem ajustar_stock_stockOf_self (db : DB) (s m : ℕ) (q : ℚ) :
    stockOf (ajustar_stock db s m q).inventarios s m =
      (if stockOf db.inventarios s m + q < 0 then 0
       else stockOf db.inventarios s m + q) := by
  simp only [ajustar_stock]
  rw [set_stock_stockOf_self _ _ _ _ (get_or_create_find_self _ s m)]
  rw [get_or_create_snd]

theorem approve_ok_WF (db : DB) (n : Nota)
    (tcm : List (ℕ × TipoCliente)) (ca : Option String)
    (mp : Option MetodoPago) (cf : Option ℕ) (mto : Option ℚ)
    (db2 : DB) (n2 : Nota)
    (h : approve_note db n tcm ca mp cf mto = .ok (db2, n2))
    (hw : WFStocks db.inventarios) : WFStocks db2.inventarios := by
  simp only [approve_note] at h
  split at h
  · cases h
  · split at h
    · cases h
    · rename_i invs0 hv
      split at h
      · cases h
      · have hw0 : WFStocks invs0 := validar_stock_ok_WF _ _ _ hv hw
        split at h
        · split at h
          · split at h
            · cases h
            · injection h with h1
              obtain ⟨hdb, hn⟩ := Prod.mk.inj h1
              subst hdb
              exact registrar_lineas_fst_WF _ _ _ hw0
          · injection h with h1
            obtain ⟨hdb, hn⟩ := Prod.mk.inj h1
            subst hdb
            exact registrar_lineas_fst_WF _ _ _ hw0
        · injection h with h1
          obtain ⟨hdb, hn⟩ := Prod.mk.inj h1
          subst hdb
          exact registrar_lineas_fst_WF _ _ _ hw0

theorem cancel_ok_WF (db : DB) (n : Nota) (ca : Option String)
    (db2 : DB) (n2 : Nota)
    (h : cancel_approved_note db n ca = .ok (db2, n2))
    (hw : WFStocks db.inventarios) : WFStocks db2.inventarios := by
  simp only [cancel_approved_note] at h
  split at h
  · cases h
  · split at h
    · cases h
    · rename_i st hst
      injection h with h1
      obtain ⟨hdb, hn⟩ := Prod.mk.inj h1
      subst hdb
      exact revertir_lineas_ok_WF _ _ _ _ hst hw

theorem edit_ok_WF (db : DB) (n : Nota)
    (tcm : List (ℕ × TipoCliente)) (kom spm : List (ℕ × ℚ × ℚ))
    (db2 : DB) (n2 : Nota)
    (h : edit_note_by_superadmin db n tcm kom spm = .ok (db2, n2))
    (hw : WFStocks db.inventarios) : WFStocks db2.inventarios := by
  simp only [edit_note_by_superadmin] at h
  split at h
  · cases h
  · split at h
    · split at h
      · cases h
      · rename_i st hst
        injection h with h1
        obtain ⟨hdb, hn⟩ := Prod.mk.inj h1
        subst hdb
        exact ajustar_lineas_ok_WF _ _ _ _ _ hst hw
    · injection h with h1
      obtain ⟨hdb, hn⟩ := Prod.mk.inj h1
      rw [← hdb]
      exact hw

theorem transfer_ok_WF (db : DB) (origen destino : ℕ)
    (payload : List TransferLine) (admin_id : Option ℕ)
    (com onom dnom : Option String) (db2 : DB) (ns ne : Nota)
    (h : create_transfer_notes db origen destino payload admin_id com onom
        dnom = .ok (db2, ns, ne))
    (hw : WFStocks db.inventarios) : WFStocks db2.inventarios := by
  simp only [create_transfer_notes] at h
  split at h
  · cases h
  · split at h
    · cases h
    · split at h
      · cases h
      · split at h
        · cases h
        · split at h
          · cases h
          · split at h
            · cases h
            · rename_i invs0 hv
              injection h with h1
              obtain ⟨hdb, hrest⟩ := Prod.mk.inj h1
              subst hdb
              exact registrar_lineas_fst_WF _ _ _
                (registrar_lineas_fst_WF _ _ _
                  (validar_stock_ok_WF _ _ _ hv hw))

theorem approve_insufficient_fails (db : DB) (n : Nota)
    (tcm : List (ℕ × TipoCliente)) (ca : Option String)
    (mp : Option MetodoPago) (cf : Option ℕ) (mto : Option ℚ)
    (hok : ¬ (n.estado ≠ NotaEstado.en_revision ∧ n.estado ≠ NotaEstado.borrador))
    (hventa : n.tipo_operacion = TipoOperacion.venta)
    (hbad : ∃ nm ∈ approve_lines db n tcm,
      stockOf db.inventarios n.sucursal_id nm.material_id < nm.kg_neto) :
    approve_note db n tcm ca mp cf mto = .error Err.insufficientStock := by
  simp only [approve_note]
  rw [if_neg hok]
  have hv : validar_stock_para_venta db.inventarios
      (apply_prices db.precios
        { n with materiales := apply_tipo_cliente_map n.materiales tcm }) =
      .error Err.insufficientStock := by
    unfold validar_stock_para_venta
    split
    · rename_i hne
      exact absurd hventa hne
    · exact validar_lineas_fails _ _ _ hbad
  rw [hv]

/-- C3: inventory balances never go negative and sales are pre-checked.
Ordinary purchase/sale movements and manual adjustments clamp a would-be
negative balance to zero (the two clamp equations); every service
operation preserves non-negativity of all (branch, material) accounts;
cancellation and superadmin-edit adjustments refuse with
`insufficientStock` instead of clamping; and approving a sale nota with a
line whose required net kg exceeds that line's available stock fails with
`insufficientStock` (and, the operations being functions into `Except`, an
error writes nothing). -/
theorem c3_confirmed :
    (∀ (invs : List Inventario) (movs : List InventarioMovimiento)
        (n : Nota) (nm : NotaMaterial),
      stockOf (registrar_movimiento_inventario invs movs n nm).1
          n.sucursal_id nm.material_id =
        (if stockOf invs n.sucursal_id nm.material_id +
            (if n.tipo_operacion = TipoOperacion.compra then nm.kg_neto
             else -nm.kg_neto) < 0 then 0
         else stockOf invs n.sucursal_id nm.material_id +
            (if n.tipo_operacion = TipoOperacion.compra then nm.kg_neto
             else -nm.kg_neto))) ∧
    (∀ (db : DB) (s m : ℕ) (q : ℚ),
      stockOf (ajustar_stock db s m q).inventarios s m =
        (if stockOf db.inventarios s m + q < 0 then 0
         else stockOf db.inventarios s m + q)) ∧
    (∀ (db : DB) (s m : ℕ) (q : ℚ), WFStocks db.inventarios →
      WFStocks (ajustar_stock db s m q).inventarios) ∧
    (∀ db n tcm ca mp cf mto db2 n2,
      approve_note db n tcm ca mp cf mto = .ok (db2, n2) →
      WFStocks db.inventarios → WFStocks db2.inventarios) ∧
    (∀ db n ca db2 n2,
      cancel_approved_note db n ca = .ok (db2, n2) →
      WFStocks db.inventarios → WFStocks db2.inventarios) ∧
    (∀ db n tcm kom spm db2 n2,
      edit_note_by_superadmin db n tcm kom spm = .ok (db2, n2) →
      WFStocks db.inventarios → WFStocks db2.inventarios) ∧
    (∀ db origen destino payload admin_id com onom dnom db2 ns ne,
      create_transfer_notes db origen destino payload admin_id com onom
          dnom = .ok (db2, ns, ne) →
      WFStocks db.inventarios → WFStocks db2.inventarios) ∧
    (∀ (n : Nota) (st : List Inventario × List InventarioMovimiento)
        (nm : NotaMaterial),
      stockOf st.1 n.sucursal_id nm.material_id +
          (if n.tipo_operacion = TipoOperacion.compra then -nm.kg_neto
           else nm.kg_neto) < 0 →
      revertir_linea n st nm = .error Err.insufficientStock) ∧
    (∀ (n : Nota) (okm : List (ℕ × ℚ))
        (st : List Inventario × List InventarioMovimiento)
        (nm : NotaMaterial),
      nm.kg_neto - ((okm.lookup nm.id).getD 0) ≠ 0 →
      stockOf st.1 n.sucursal_id nm.material_id +
          (if n.tipo_operacion = TipoOperacion.compra
           then nm.kg_neto - ((okm.lookup nm.id).getD 0)
           else -(nm.kg_neto - ((okm.lookup nm.id).getD 0))) < 0 →
      ajustar_linea n okm st nm = .error Err.insufficientStock) ∧
    (∀ db n tcm ca mp cf mto,
      ¬ (n.estado ≠ NotaEstado.en_revision ∧
         n.estado ≠ NotaEstado.borrador) →
      n.tipo_operacion = TipoOperacion.venta →
      (∃ nm ∈ approve_lines db n tcm,
        stockOf db.inventarios n.sucursal_id nm.material_id < nm.kg_neto) →
      approve_note db n tcm ca mp cf mto = .error Err.insufficientStock) := by
  refine ⟨?_, ?_, ?_, ?_, ?_, ?_, ?_, ?_, ?_, ?_⟩
  · intro invs movs n nm
    exact registrar_inv_fst_stockOf_self invs movs n nm
  · intro db s m q
    exact ajustar_stock_stockOf_self db s m q
  · intro db s m q hw
    exact ajustar_stock_WF db s m q hw
  · intro db n tcm ca mp cf mto db2 n2 h hw
    exact approve_ok_WF db n tcm ca mp cf mto db2 n2 h hw
  · intro db n ca db2 n2 h hw
    exact cancel_ok_WF db n ca db2 n2 h hw
  · intro db n tcm kom spm db2 n2 h hw
    exact edit_ok_WF db n tcm kom spm db2 n2 h hw
  · intro db origen destino payload admin_id com onom dnom db2 ns ne h hw
    exact transfer_ok_WF db origen destino payload admin_id com onom dnom
      db2 ns ne h hw
  · intro n st nm h
    exact revertir_linea_refuses n st nm h
  · intro n okm st nm hd h
    exact ajustar_linea_refuses n okm st nm hd h
  · intro db n tcm ca mp cf mto hok hventa hbad
    exact approve_insufficient_fails db n tcm ca mp cf mto hok hventa hbad

/-- Concrete instance of C3: approving a draft sale nota asking for 5 kg
of material 7 against an empty inventory fails with `insufficientStock`. -/
theorem c3_confirmed_witness :
    (¬ (notaC3.estado ≠ NotaEstado.en_revision ∧
        notaC3.estado ≠ NotaEstado.borrador)) ∧
    notaC3.tipo_operacion = TipoOperacion.venta ∧
    (∃ nm ∈ approve_lines dbC3 notaC3 [],
      stockOf dbC3.inventarios notaC3.sucursal_id nm.material_id <
        nm.kg_neto) ∧
    approve_note dbC3 notaC3 [] none none none none =
      .error Err.insufficientStock :=
  ⟨by decide, by decide, by decide,
    c3_confirmed.2.2.2.2.2.2.2.2.2 dbC3 notaC3 [] none none none none
      (by decide) (by decide) (by decide)⟩

/-! ## C2: the approve/cancel round trip -/
theorem clamp_of_nonneg (a : ℚ) (h : 0 ≤ a) :
    (if a < 0 then 0 else a) = a := by
  rw [if_neg (not_lt.mpr h)]

theorem stockOf_nonneg_of_WF (invs : List Inventario) (s m : ℕ)
    (hw : WFStocks invs) : 0 ≤ stockOf invs s m := by
  unfold stockOf
  cases hf : find_inventario invs s m with
  | none => exact le_refl 0
  | some i =>
      have hmem : i ∈ invs := List.mem_of_find?_eq_some hf
      exact hw i hmem

theorem validar_lineas_ok_bounds (suc : ℕ) :
    ∀ ms : List NotaMaterial, ∀ acc acc2 : List Inventario,
      validar_lineas suc acc ms = .ok acc2 →
      ∀ nm ∈ ms, nm.kg_neto ≤ stockOf acc suc nm.material_id := by
  intro ms
  induction ms with
  | nil =>
      intro acc acc2 h nm hmem
      cases hmem
  | cons x rest ih =>
      intro acc acc2 h nm hmem
      simp only [validar_lineas] at h
      split at h
      · cases h
      · rename_i hpass
        rcases List.mem_cons.mp hmem with h1 | h2
        · subst h1
          rw [get_or_create_snd] at hpass
          exact not_lt.mp hpass
        · have := ih _ _ h nm h2
          rwa [get_or_create_fst_stockOf] at this

theorem validar_stock_ok_bounds (invs : List Inventario) (nota : Nota)
    (invs0 : List Inventario)
    (h : validar_stock_para_venta invs nota = .ok invs0)
    (hop : nota.tipo_operacion = TipoOperacion.venta) :
    ∀ nm ∈ nota.materiales,
      nm.kg_neto ≤ stockOf invs nota.sucursal_id nm.material_id := by
  simp only [validar_stock_para_venta] at h
  split at h
  · rename_i hne
    exact absurd hop hne
  · exact validar_lineas_ok_bounds _ _ _ _ h

theorem validar_stock_ok_stockOf (invs : List Inventario) (nota : Nota)
    (invs0 : List Inventario)
    (h : validar_stock_para_venta invs nota = .ok invs0) :
    ∀ s m, stockOf invs0 s m = stockOf invs s m := by
  simp only [validar_stock_para_venta] at h
  split at h
  · injection h with h1
    rw [h1]
    intro s m
    rfl
  · exact validar_lineas_ok_stockOf _ _ _ _ h

theorem revertir_linea_ok_self (n : Nota)
    (st st2 : List Inventario × List InventarioMovimiento) (nm : NotaMaterial)
    (h : revertir_linea n st nm = .ok st2) :
    stockOf st2.1 n.sucursal_id nm.material_id =
      stockOf st.1 n.sucursal_id nm.material_id +
        (if n.tipo_operacion = TipoOperacion.compra then -nm.kg_neto
         else nm.kg_neto) := by
  simp only [revertir_linea] at h
  split at h
  · rename_i hcompra
    split at h
    · cases h
    · injection h with h1
      rw [← h1]
      rw [set_stock_stockOf_self _ _ _ _ (get_or_create_find_self st.1 _ _),
        get_or_create_snd, if_pos hcompra]
  · rename_i hventa
    split at h
    · cases h
    · injection h with h1
      rw [← h1]
      rw [set_stock_stockOf_self _ _ _ _ (get_or_create_find_self st.1 _ _),
        get_or_create_snd, if_neg hventa]

theorem revertir_linea_ok_other (n : Nota)
    (st st2 : List Inventario × List InventarioMovimiento) (nm : NotaMaterial)
    (h : revertir_linea n st nm = .ok st2) (s m : ℕ)
    (hk : ¬ (s = n.sucursal_id ∧ m = nm.material_id)) :
    stockOf st2.1 s m = stockOf st.1 s m := by
  simp only [revertir_linea] at h
  split at h <;>
    [skip; skip] <;>
    · split at h
      · cases h
      · injection h with h1
        rw [← h1]
        rw [set_stock_stockOf_other _ _ _ _ _ _ hk, get_or_create_fst_stockOf]

theorem registrar_lineas_untouched (n : Nota) :
    ∀ ms : List NotaMaterial,
      ∀ st : List Inventario × List InventarioMovimiento, ∀ s m : ℕ,
      (∀ nm ∈ ms, ¬ (s = n.sucursal_id ∧ m = nm.material_id)) →
      stockOf (registrar_lineas n st ms).1 s m = stockOf st.1 s m := by
  intro ms
  induction ms with
  | nil => intro st s m _; rfl
  | cons x rest ih =>
      intro st s m hall
      rw [registrar_lineas]
      rw [ih _ s m (fun nm hmem => hall nm (List.mem_cons_of_mem x hmem))]
      exact registrar_inv_fst_stockOf_other st.1 st.2 n x s m
        (hall x (List.mem_cons_self x rest))

theorem registrar_lineas_key (n : Nota) :
    ∀ ms : List NotaMaterial,
      ∀ st : List Inventario × List InventarioMovimiento, ∀ nm : NotaMaterial,
      ms.Pairwise (fun a b => a.material_id ≠ b.material_id) →
      nm ∈ ms →
      stockOf (registrar_lineas n st ms).1 n.sucursal_id nm.material_id =
        (if stockOf st.1 n.sucursal_id nm.material_id +
            (if n.tipo_operacion = TipoOperacion.compra then nm.kg_neto
             else -nm.kg_neto) < 0 then 0
         else stockOf st.1 n.sucursal_id nm.material_id +
            (if n.tipo_operacion = TipoOperacion.compra then nm.kg_neto
             else -nm.kg_neto)) := by
  intro ms
  induction ms with
  | nil => intro st nm _ hmem; cases hmem
  | cons x rest ih =>
      intro st nm hpw hmem
      have hpw2 := List.pairwise_cons.mp hpw
      rcases List.mem_cons.mp hmem with h1 | h2
      · subst h1
        rw [registrar_lineas]
        rw [registrar_lineas_untouched n rest _ n.sucursal_id nm.material_id
          (fun y hy hcon => hpw2.1 y hy hcon.2)]
        exact registrar_inv_fst_stockOf_self st.1 st.2 n nm
      · rw [registrar_lineas]
        rw [ih _ nm hpw2.2 h2]
        rw [registrar_inv_fst_stockOf_other st.1 st.2 n x n.sucursal_id
          nm.material_id (fun hcon => (hpw2.1 nm h2) hcon.2.symm)]

theorem revertir_lineas_ok_untouched (n : Nota) :
    ∀ ms : List NotaMaterial,
      ∀ st st2 : List Inventario × List InventarioMovimiento, ∀ s m : ℕ,
      revertir_lineas n st ms = .ok st2 →
      (∀ nm ∈ ms, ¬ (s = n.sucursal_id ∧ m = nm.material_id)) →
      stockOf st2.1 s m = stockOf st.1 s m := by
  intro ms
  induction ms with
  | nil =>
      intro st st2 s m h _
      injection h with h1
      rw [← h1]
  | cons x rest ih =>
      intro st st2 s m h hall
      simp only [revertir_lineas] at h
      split at h
      · cases h
      · rename_i st1 h1
        rw [ih _ _ s m h (fun nm hmem => hall nm (List.mem_cons_of_mem x hmem))]
        exact revertir_linea_ok_other n st st1 x h1 s m
          (hall x (List.mem_cons_self x rest))

theorem revertir_lineas_ok_key (n : Nota) :
    ∀ ms : List NotaMaterial,
      ∀ st st2 : List Inventario × List InventarioMovimiento,
      ∀ nm : NotaMaterial,
      revertir_lineas n st ms = .ok st2 →
      ms.Pairwise (fun a b => a.material_id ≠ b.material_id) →
      nm ∈ ms →
      stockOf st2.1 n.sucursal_id nm.material_id =
        stockOf st.1 n.sucursal_id nm.material_id +
          (if n.tipo_operacion = TipoOperacion.compra then -nm.kg_neto
           else nm.kg_neto) := by
  intro ms
  induction ms with
  | nil => intro st st2 nm _ _ hmem; cases hmem
  | cons x rest ih =>
      intro st st2 nm h hpw hmem
      have hpw2 := List.pairwise_cons.mp hpw
      simp only [revertir_lineas] at h
      split at h
      · cases h
      · rename_i st1 h1
        rcases List.mem_cons.mp hmem with hm1 | hm2
        · subst hm1
          rw [revertir_lineas_ok_untouched n rest _ _ n.sucursal_id
            nm.material_id h (fun y hy hcon => hpw2.1 y hy hcon.2)]
          exact revertir_linea_ok_self n st st1 nm h1
        · rw [ih _ _ nm h hpw2.2 hm2]
          rw [revertir_linea_ok_other n st st1 x h1 n.sucursal_id
            nm.material_id (fun hcon => (hpw2.1 nm hm2) hcon.2.symm)]

theorem map_recalc_idem (ms : List NotaMaterial) :
    (ms.map recalc_material).map recalc_material = ms.map recalc_material := by
  rw [List.map_map]
  exact List.map_congr_left (fun x _ => recalc_material_idem x)

theorem mem_map_recalc_of_recalced (ms : List NotaMaterial)
    (nm : NotaMaterial)
    (h : nm ∈ (ms.map recalc_material).map recalc_material) :
    nm ∈ ms.map recalc_material := by
  rw [map_recalc_idem] at h
  exact h

theorem reversos_pagos_nil (n : Nota) (cs : List MovimientoContable) :
    registrar_reversos_pagos n cs [] = cs := rfl

theorem registrar_contable_eq (cs : List MovimientoContable) (n : Nota)
    (mp : Option MetodoPago) (cfo : Option ℕ) (m : ℚ) (t : ContTipo) :
    registrar_movimiento_contable cs n mp cfo (some m) (some t) =
      cs ++ [{ nota_id := some n.id, sucursal_id := n.sucursal_id
               tipo := t, monto := m
               metodo_pago := mp <|> n.metodo_pago
               cuenta_financiera :=
                 cfo <|> cuenta_ref n.cuenta_financiera_id }] := rfl

theorem has_base_append (cs : List MovimientoContable)
    (row : MovimientoContable) (nid : ℕ) (tipo : ContTipo)
    (h1 : row.nota_id = some nid) (h2 : row.tipo = tipo) :
    has_base_contable_movement (cs ++ [row]) nid tipo = true := by
  unfold has_base_contable_movement
  rw [List.any_append]
  simp [h1, h2]

theorem cancel_ok_inv (db : DB) (n : Nota) (ca : Option String)
    (db2 : DB) (n2 : Nota)
    (h : cancel_approved_note db n ca = .ok (db2, n2)) :
    ∃ st, revertir_lineas n (db.inventarios, db.movimientos_inv)
        n.materiales = .ok st ∧ db2.inventarios = st.1 := by
  simp only [cancel_approved_note] at h
  split at h
  · cases h
  · split at h
    · cases h
    · rename_i st hst
      injection h with h1
      obtain ⟨hdb, hn⟩ := Prod.mk.inj h1
      exact ⟨st, hst, by rw [← hdb]⟩

theorem roundtrip_stockOf (na : Nota) (invs0 : List Inventario)
    (movs movs2 : List InventarioMovimiento) (ms : List NotaMaterial)
    (st2 : List Inventario × List InventarioMovimiento)
    (hpw : ms.Pairwise (fun a b => a.material_id ≠ b.material_id))
    (hnn : ∀ nm ∈ ms, 0 ≤ nm.kg_neto)
    (hbound : na.tipo_operacion = TipoOperacion.venta →
      ∀ nm ∈ ms, nm.kg_neto ≤ stockOf invs0 na.sucursal_id nm.material_id)
    (hw : WFStocks invs0)
    (hrev : revertir_lineas na
        ((registrar_lineas na (invs0, movs) ms).1, movs2) ms = .ok st2) :
    ∀ s m, stockOf st2.1 s m = stockOf invs0 s m := by
  intro s m
  by_cases hex : ∃ nm ∈ ms, s = na.sucursal_id ∧ m = nm.material_id
  · obtain ⟨nm, hmem, hs, hm⟩ := hex
    subst hs
    subst hm
    have hreg := registrar_lineas_key na ms (invs0, movs) nm hpw hmem
    have hnoclamp : 0 ≤ stockOf invs0 na.sucursal_id nm.material_id +
        (if na.tipo_operacion = TipoOperacion.compra then nm.kg_neto
         else -nm.kg_neto) := by
      by_cases hop : na.tipo_operacion = TipoOperacion.compra
      · rw [if_pos hop]
        have ha := stockOf_nonneg_of_WF invs0 na.sucursal_id nm.material_id hw
        have hb := hnn nm hmem
        linarith
      · rw [if_neg hop]
        have hv : na.tipo_operacion = TipoOperacion.venta := by
          cases hopc : na.tipo_operacion
          · exact absurd hopc hop
          · rfl
        have hb := hbound hv nm hmem
        linarith
    rw [show stockOf (invs0, movs).1 na.sucursal_id nm.material_id =
        stockOf invs0 na.sucursal_id nm.material_id from rfl] at hreg
    rw [clamp_of_nonneg _ hnoclamp] at hreg
    rw [revertir_lineas_ok_key na ms _ st2 nm hrev hpw hmem]
    rw [show stockOf ((registrar_lineas na (invs0, movs) ms).1, movs2).1
          na.sucursal_id nm.material_id =
        stockOf (registrar_lineas na (invs0, movs) ms).1
          na.sucursal_id nm.material_id from rfl]
    rw [hreg]
    by_cases hop : na.tipo_operacion = TipoOperacion.compra
    · simp only [if_pos hop]
      ring
    · simp only [if_neg hop]
      ring
  · push_neg at hex
    have hex2 : ∀ nm ∈ ms, ¬ (s = na.sucursal_id ∧ m = nm.material_id) := by
      intro nm hmem hcon
      exact hex nm hmem hcon.1 hcon.2
    rw [revertir_lineas_ok_untouched na ms _ st2 s m hrev hex2]
    rw [show stockOf ((registrar_lineas na (invs0, movs) ms).1, movs2).1 s m =
        stockOf (registrar_lineas na (invs0, movs) ms).1 s m from rfl]
    exact registrar_lineas_untouched na ms (invs0, movs) s m hex2

/-- C2 (amended): the approve-then-cancel round trip does restore every
(branch, material) balance and leave a zero-sum base + reversal pair, but
only under the hypotheses the claim leaves implicit: non-negative starting
stocks, pairwise-distinct line materials (otherwise the sale-side clamp of
a duplicated material breaks the restoration — see `c2_counterexample`),
non-negative line nets, no recorded payments and no initial payment
arguments, and no pre-existing base movement for the nota. -/
theorem c2_amended (db : DB) (n : Nota) (tcm : List (ℕ × TipoCliente))
    (ca ca2 : Option String) (cf : Option ℕ)
    (db2 : DB) (n2 : Nota) (db3 : DB) (n3 : Nota)
    (happ : approve_note db n tcm ca none cf none = .ok (db2, n2))
    (hcan : cancel_approved_note db2 n2 ca2 = .ok (db3, n3))
    (hw : WFStocks db.inventarios)
    (hpw : n2.materiales.Pairwise (fun a b => a.material_id ≠ b.material_id))
    (hnn : ∀ nm ∈ n2.materiales, 0 ≤ nm.kg_neto)
    (hpag : n.pagos = [])
    (hnb : has_base_contable_movement db.movimientos_cont n.id
        (base_cont_tipo n.tipo_operacion) = false) :
    (∀ s m, stockOf db3.inventarios s m = stockOf db.inventarios s m) ∧
    ∃ base reverso,
      db3.movimientos_cont = db.movimientos_cont ++ [base, reverso] ∧
      base.monto + reverso.monto = 0 := by
  have hshape := cancel_ok_conts db2 n2 ca2 db3 n3 hcan
  obtain ⟨st, hst, hinv3⟩ := cancel_ok_inv db2 n2 ca2 db3 n3 hcan
  have hnb' : ¬ (has_base_contable_movement db.movimientos_cont n.id
      (base_cont_tipo n.tipo_operacion) = true) := by simp [hnb]
  simp only [approve_note] at happ
  split at happ
  · cases happ
  · split at happ
    · cases happ
    · rename_i invs0 hv
      split at happ
      · rename_i e heq
        rw [if_neg (by simp)] at heq
        cases heq
      · rename_i cuenta_id heq
        rw [if_neg (by simp)] at heq
        injection heq with heq2
        subst heq2
        split at happ
        · rename_i p heq3
          rw [if_neg (by simp)] at heq3
          cases heq3
        · injection happ with h1
          obtain ⟨hdb, hn⟩ := Prod.mk.inj h1
          have hconts : db2.movimientos_cont = db.movimientos_cont ++
              [{ nota_id := some n2.id, sucursal_id := n2.sucursal_id
                 tipo := base_cont_tipo n2.tipo_operacion
                 monto := n2.total_monto
                 metodo_pago := n2.metodo_pago <|> n2.metodo_pago
                 cuenta_financiera := cuenta_ref n2.cuenta_financiera_id <|>
                   cuenta_ref n2.cuenta_financiera_id }] := by
            rw [← hdb, ← hn]
            split
            · rename_i hc
              exact absurd hc hnb'
            · rfl
          constructor
          · intro s m
            rw [hinv3]
            rw [← hn] at hpw hnn hst
            rw [← hdb] at hst
            refine (roundtrip_stockOf _ _ _ _ _ _ hpw hnn ?_ ?_ hst
                s m).trans (validar_stock_ok_stockOf _ _ _ hv s m)
            · intro hv2 nm hm
              rw [validar_stock_ok_stockOf _ _ _ hv]
              refine validar_stock_ok_bounds db.inventarios _ invs0 hv
                ?_ nm ?_
              · exact hv2
              · exact mem_map_recalc_of_recalced _ nm hm
            · exact validar_stock_ok_WF _ _ _ hv hw
          · have hpag2 : n2.pagos = [] := by
              rw [← hn]
              exact hpag
            rw [hconts] at hshape
            rw [if_pos (has_base_append db.movimientos_cont _ n2.id
              (base_cont_tipo n2.tipo_operacion) rfl rfl)] at hshape
            rw [hpag2] at hshape
            rw [reversos_pagos_nil] at hshape
            rw [registrar_contable_eq] at hshape
            rw [List.append_assoc] at hshape
            refine ⟨_, _, hshape, ?_⟩
            ring

/-- C2 (counterexample): a sale nota with two 60 kg lines of the same
material against a 100 kg stock passes the per-line validation (60 ≤ 100
twice), the second deduction is clamped at zero during approval, and the
cancellation then adds both 60 kg back: the round trip leaves 120 kg where
100 were present before approval. -/
theorem c2_counterexample :
    ((approve_note dbC2 notaC2 [] none none none none).bind (fun r =>
        cancel_approved_note r.1 r.2 none)).map
      (fun r => stockOf r.1.inventarios 1 7) = .ok 120 ∧
    stockOf dbC2.inventarios 1 7 = 100 :=
  ⟨by decide, by decide⟩

/-- Concrete instance of the C2 amended theorem: approving and cancelling
a one-line 10 kg purchase nota restores every stock balance and leaves a
base row and a reversal row whose signed amounts cancel. -/
theorem c2_amended_witness :
    (∀ s m, stockOf db3C2w.inventarios s m = stockOf dbC2w.inventarios s m) ∧
    ∃ base reverso,
      db3C2w.movimientos_cont = dbC2w.movimientos_cont ++ [base, reverso] ∧
      base.monto + reverso.monto = 0 :=
  c2_amended dbC2w notaC2w [] none none none db2C2w n2C2w db3C2w n3C2w
    (by decide) (by decide) (by intro i hi; cases hi) (by decide) (by decide)
    (by decide) (by decide)

/-! ## C8: transfer validation, cross-references and stock effects -/
theorem build_transfer_materials_ok_conds (dm : List ℕ) :
    ∀ payload : List TransferLine, ∀ idx : ℕ, ∀ ms : List NotaMaterial,
      build_transfer_materials dm idx payload = .ok ms →
      ∀ mp ∈ payload, dm.contains mp.material_id = true ∧
        0 < mp.precio_unitario := by
  intro payload
  induction payload with
  | nil => intro idx ms h mp hmem; cases hmem
  | cons x rest ih =>
      intro idx ms h mp hmem
      simp only [build_transfer_materials] at h
      split at h
      · cases h
      · split at h
        · cases h
        · rename_i hc hp
          split at h
          · rename_i ms2 hms2
            rcases List.mem_cons.mp hmem with h1 | h2
            · subst h1
              exact ⟨by simpa using hc, lt_of_not_le hp⟩
            · exact ih (idx + 1) ms2 hms2 mp h2
          · cases h

theorem build_transfer_materials_ok_of_conds (dm : List ℕ) :
    ∀ payload : List TransferLine, ∀ idx : ℕ,
      (∀ mp ∈ payload, dm.contains mp.material_id = true ∧
        0 < mp.precio_unitario) →
      ∃ ms, build_transfer_materials dm idx payload = .ok ms := by
  intro payload
  induction payload with
  | nil => intro idx _; exact ⟨[], rfl⟩
  | cons x rest ih =>
      intro idx hall
      obtain ⟨hc, hp⟩ := hall x (List.mem_cons_self x rest)
      obtain ⟨ms, hms⟩ := ih (idx + 1)
        (fun mp hmem => hall mp (List.mem_cons_of_mem x hmem))
      refine ⟨{ id := idx, material_id := x.material_id
                kg_bruto := x.kg_bruto, kg_descuento := x.kg_descuento
                kg_neto := x.kg_bruto - x.kg_descuento
                precio_unitario := some x.precio_unitario
                subtotal := some (x.precio_unitario *
                  (x.kg_bruto - x.kg_descuento))
                version_precio_id := none
                tipo_cliente := some (x.tipo_cliente.getD TipoCliente.regular)
                subpesajes := [] } :: ms, ?_⟩
      simp only [build_transfer_materials]
      rw [if_neg (not_not_intro hc), if_neg (not_le.mpr hp), hms]

theorem build_transfer_materials_price_fail (dm : List ℕ) :
    ∀ payload : List TransferLine, ∀ idx : ℕ,
      (∀ mp ∈ payload, dm.contains mp.material_id = true) →
      (∃ mp ∈ payload, mp.precio_unitario ≤ 0) →
      build_transfer_materials dm idx payload = .error Err.invalidAmount := by
  intro payload
  induction payload with
  | nil =>
      intro idx _ hbad
      obtain ⟨mp, hmem, _⟩ := hbad
      cases hmem
  | cons x rest ih =>
      intro idx hall hbad
      simp only [build_transfer_materials]
      rw [if_neg (not_not_intro (hall x (List.mem_cons_self x rest)))]
      by_cases hp : x.precio_unitario ≤ 0
      · rw [if_pos hp]
      · rw [if_neg hp]
        obtain ⟨mp, hmem, hmp⟩ := hbad
        rcases List.mem_cons.mp hmem with h1 | h2
        · subst h1
          exact absurd hmp hp
        · rw [ih (idx + 1)
            (fun q hq => hall q (List.mem_cons_of_mem x hq)) ⟨mp, h2, hmp⟩]

theorem build_transfer_note_shape (dm : List ℕ) (nid sid : ℕ)
    (op : TipoOperacion) (payload : List TransferLine) (n : Nota)
    (h : build_transfer_note dm nid sid op payload = .ok n) :
    ∃ ms, build_transfer_materials dm 0 payload = .ok ms ∧
      n.materiales = ms.map recalc_material ∧ n.sucursal_id = sid ∧
      n.tipo_operacion = op ∧ n.id = nid := by
  simp only [build_transfer_note] at h
  split at h
  · cases h
  · rename_i ms hms
    injection h with h1
    subst h1
    exact ⟨ms, hms, rfl, rfl, rfl, rfl⟩

theorem build_transfer_note_fail (dm : List ℕ) (nid sid : ℕ)
    (op : TipoOperacion) (payload : List TransferLine) (e : Err)
    (h : build_transfer_materials dm 0 payload = .error e) :
    build_transfer_note dm nid sid op payload = .error e := by
  simp only [build_transfer_note]
  rw [h]

theorem registrar_lineas_len (n : Nota) :
    ∀ ms : List NotaMaterial,
      ∀ st : List Inventario × List InventarioMovimiento,
      (registrar_lineas n st ms).2.length = st.2.length + ms.length := by
  intro ms
  induction ms with
  | nil => intro st; rfl
  | cons x rest ih =>
      intro st
      rw [registrar_lineas, ih]
      simp only [registrar_movimiento_inventario]
      simp [Nat.add_assoc, Nat.add_comm 1 rest.length]

theorem transfer_ok_inv (db : DB) (origen destino : ℕ)
    (payload : List TransferLine) (admin_id : Option ℕ)
    (com onom dnom : Option String) (db2 : DB) (ns ne : Nota)
    (h : create_transfer_notes db origen destino payload admin_id com onom
        dnom = .ok (db2, ns, ne)) :
    ¬ (origen = destino) ∧
    ∃ ns0 ne0 invs0,
      build_transfer_note db.materiales_ids db.next_nota_id origen
        TipoOperacion.venta payload = .ok ns0 ∧
      build_transfer_note db.materiales_ids (db.next_nota_id + 1) destino
        TipoOperacion.compra payload = .ok ne0 ∧
      validar_stock_para_venta db.inventarios ns0 = .ok invs0 ∧
      ns.materiales = ns0.materiales ∧
      ne.materiales = ne0.materiales ∧
      db2.inventarios =
        (registrar_lineas ne
          (registrar_lineas ns (invs0, db.movimientos_inv) ns.materiales)
          ne.materiales).1 := by
  simp only [create_transfer_notes] at h
  split at h
  · cases h
  · split at h
    · cases h
    · split at h
      · cases h
      · rename_i hnod
        split at h
        · cases h
        · rename_i nota_salida hs
          split at h
          · cases h
          · rename_i nota_entrada he
            split at h
            · cases h
            · rename_i invs0 hv
              injection h with h1
              obtain ⟨hdb, hrest⟩ := Prod.mk.inj h1
              obtain ⟨hns, hne⟩ := Prod.mk.inj hrest
              refine ⟨hnod, nota_salida, nota_entrada, invs0, hs, he, hv,
                ?_, ?_, ?_⟩
              · rw [← hns]
              · rw [← hne]
              · rw [← hdb, ← hns, ← hne]

theorem transfer_ok_shape (db : DB) (origen destino : ℕ)
    (payload : List TransferLine) (admin_id : Option ℕ)
    (com onom dnom : Option String) (db2 : DB) (ns ne : Nota)
    (h : create_transfer_notes db origen destino payload admin_id com onom
        dnom = .ok (db2, ns, ne)) :
    ns.estado = NotaEstado.aprobada ∧ ne.estado = NotaEstado.aprobada ∧
    ns.sucursal_id = origen ∧ ne.sucursal_id = destino ∧
    ns.tipo_operacion = TipoOperacion.venta ∧
    ne.tipo_operacion = TipoOperacion.compra ∧
    ne.id = ns.id + 1 ∧
    ne.materiales = ns.materiales ∧
    ns.comentarios_admin = some ((com.getD "Transferencia entre sucursales") ++
      ". Destino: " ++ (dnom.getD "sucursal destino") ++
      ". Nota entrada #" ++ toString ne.id) ∧
    ne.comentarios_admin = some ((com.getD "Transferencia entre sucursales") ++
      ". Origen: " ++ (onom.getD "sucursal origen") ++
      ". Nota salida #" ++ toString ns.id) ∧
    db2.movimientos_inv.length = db.movimientos_inv.length +
      ns.materiales.length + ne.materiales.length ∧
    (∀ mp ∈ payload, db.materiales_ids.contains mp.material_id = true ∧
      0 < mp.precio_unitario) := by
  simp only [create_transfer_notes] at h
  split at h
  · cases h
  · split at h
    · cases h
    · split at h
      · cases h
      · split at h
        · cases h
        · rename_i nota_salida hs
          split at h
          · cases h
          · rename_i nota_entrada he
            split at h
            · cases h
            · rename_i invs0 hv
              injection h with h1
              obtain ⟨hdb, hrest⟩ := Prod.mk.inj h1
              obtain ⟨hns, hne⟩ := Prod.mk.inj hrest
              obtain ⟨msS, hmsS, hSm, hSs, hSo, hSi⟩ :=
                build_transfer_note_shape _ _ _ _ _ _ hs
              obtain ⟨msE, hmsE, hEm, hEs, hEo, hEi⟩ :=
                build_transfer_note_shape _ _ _ _ _ _ he
              have heq : msS = msE := by
                injection hmsS.symm.trans hmsE
              subst hdb
              subst hns
              subst hne
              refine ⟨(build_transfer_note_fields _ _ _ _ _ _ hs).1,
                (build_transfer_note_fields _ _ _ _ _ _ he).1,
                hSs, hEs, hSo, hEo, ?_, ?_, rfl, rfl, ?_, ?_⟩
              · show nota_entrada.id = nota_salida.id + 1
                rw [hEi, hSi]
              · show nota_entrada.materiales = nota_salida.materiales
                rw [hEm, hSm, heq]
              · dsimp only
                rw [registrar_lineas_len, registrar_lineas_len]
              · intro mp hmp
                exact build_transfer_materials_ok_conds _ _ _ _ hmsS mp hmp

theorem transfer_ok_stock (db : DB) (origen destino : ℕ)
    (payload : List TransferLine) (admin_id : Option ℕ)
    (com onom dnom : Option String) (db2 : DB) (ns ne : Nota)
    (h : create_transfer_notes db origen destino payload admin_id com onom
        dnom = .ok (db2, ns, ne))
    (hpw : ns.materiales.Pairwise (fun a b => a.material_id ≠ b.material_id)) :
    ∀ nm ∈ ns.materiales,
      stockOf db2.inventarios origen nm.material_id =
        (if stockOf db.inventarios origen nm.material_id - nm.kg_neto < 0
         then 0
         else stockOf db.inventarios origen nm.material_id - nm.kg_neto) ∧
      stockOf db2.inventarios destino nm.material_id =
        (if stockOf db.inventarios destino nm.material_id + nm.kg_neto < 0
         then 0
         else stockOf db.inventarios destino nm.material_id + nm.kg_neto) := by
  obtain ⟨hnod, ns0, ne0, invs0, hs, he, hval, hsm, hem, hinv2⟩ :=
    transfer_ok_inv db origen destino payload admin_id com onom dnom
      db2 ns ne h
  obtain ⟨_, _, hsSuc, heSuc, hsOp, heOp, _, hmatseq, _, _, _, _⟩ :=
    transfer_ok_shape db origen destino payload admin_id com onom dnom
      db2 ns ne h
  intro nm hm
  have hpwE : ne.materiales.Pairwise
      (fun a b => a.material_id ≠ b.material_id) := by
    rw [hmatseq]
    exact hpw
  have hmE : nm ∈ ne.materiales := by
    rw [hmatseq]
    exact hm
  have hcond1 : ∀ nm' ∈ ne.materiales,
      ¬ (ns.sucursal_id = ne.sucursal_id ∧
         nm.material_id = nm'.material_id) := by
    intro nm' _ hcon
    apply hnod
    rw [← hsSuc, ← heSuc]
    exact hcon.1
  have hcond2 : ∀ nm' ∈ ns.materiales,
      ¬ (ne.sucursal_id = ns.sucursal_id ∧
         nm.material_id = nm'.material_id) := by
    intro nm' _ hcon
    apply hnod
    rw [← hsSuc, ← heSuc]
    exact hcon.1.symm
  constructor
  · rw [hinv2, ← hsSuc]
    rw [registrar_lineas_untouched ne ne.materiales _ _ _ hcond1]
    rw [registrar_lineas_key ns ns.materiales _ nm hpw hm]
    dsimp only
    rw [validar_stock_ok_stockOf _ _ _ hval, hsOp,
      if_neg (show TipoOperacion.venta ≠ TipoOperacion.compra from by decide),
      sub_eq_add_neg]
  · rw [hinv2, ← heSuc]
    rw [registrar_lineas_key ne ne.materiales _ nm hpwE hmE]
    rw [registrar_lineas_untouched ns ns.materiales _ _ _ hcond2]
    dsimp only
    rw [validar_stock_ok_stockOf _ _ _ hval, heOp,
      if_pos (show TipoOperacion.compra = TipoOperacion.compra from rfl)]

theorem transfer_empty_fails (db : DB) (o d : ℕ) (aid : Option ℕ)
    (c onm dnm : Option String) :
    create_transfer_notes db o d [] aid c onm dnm =
      .error Err.invalidInput := rfl

theorem transfer_same_branch_fails (db : DB) (o : ℕ)
    (payload : List TransferLine) (aid : Option ℕ) (c onm dnm : Option String)
    (hne : payload.isEmpty = false) (hadm : ¬ (aid.getD 0 = 0)) :
    create_transfer_notes db o o payload aid c onm dnm =
      .error Err.invalidInput := by
  simp only [create_transfer_notes]
  rw [if_neg (show ¬ (payload.isEmpty = true) from by simp [hne]),
    if_neg hadm]
  simp

theorem transfer_price_fails (db : DB) (o d : ℕ)
    (payload : List TransferLine) (aid : Option ℕ) (c onm dnm : Option String)
    (hne : payload.isEmpty = false) (hadm : ¬ (aid.getD 0 = 0))
    (hnod : ¬ (o = d))
    (hmats : ∀ mp ∈ payload, db.materiales_ids.contains mp.material_id = true)
    (hbad : ∃ mp ∈ payload, mp.precio_unitario ≤ 0) :
    create_transfer_notes db o d payload aid c onm dnm =
      .error Err.invalidAmount := by
  simp only [create_transfer_notes]
  rw [if_neg (show ¬ (payload.isEmpty = true) from by simp [hne]),
    if_neg hadm, if_neg hnod,
    build_transfer_note_fail _ _ _ _ _ _
      (build_transfer_materials_price_fail _ _ _ hmats hbad)]

theorem transfer_stock_check_fails (db : DB) (o d : ℕ)
    (payload : List TransferLine) (aid : Option ℕ) (c onm dnm : Option String)
    (ns0 ne0 : Nota) (e : Err)
    (hne : payload.isEmpty = false) (hadm : ¬ (aid.getD 0 = 0))
    (hnod : ¬ (o = d))
    (hs : build_transfer_note db.materiales_ids db.next_nota_id o
        TipoOperacion.venta payload = .ok ns0)
    (he : build_transfer_note db.materiales_ids (db.next_nota_id + 1) d
        TipoOperacion.compra payload = .ok ne0)
    (hv : validar_stock_para_venta db.inventarios ns0 = .error e) :
    create_transfer_notes db o d payload aid c onm dnm = .error e := by
  simp only [create_transfer_notes]
  rw [if_neg (show ¬ (payload.isEmpty = true) from by simp [hne]),
    if_neg hadm, if_neg hnod, hs, he]
  dsimp only
  rw [hv]

/-- C8 (counterexample): a transfer line priced at 0 — a non-negative
price the claim says is accepted — is rejected with `invalidAmount`, while
a line with the negative quantity −5 kg — which the claim says is
rejected — goes through and produces two approved notas: the service
checks price > 0 and never validates quantities. -/
theorem c8_counterexample :
    create_transfer_notes (mk_db [] []) 1 2
        [{ material_id := 7, tipo_cliente := none, kg_bruto := 10
           kg_descuento := 0, precio_unitario := 0 }] (some 1) none none
        none = .error Err.invalidAmount ∧
    (create_transfer_notes (mk_db [] []) 1 2
        [{ material_id := 7, tipo_cliente := none, kg_bruto := -5
           kg_descuento := 0, precio_unitario := 1 }] (some 1) none none
        none).map (fun r => (r.2.1.estado, r.2.2.estado)) =
      .ok (NotaEstado.aprobada, NotaEstado.aprobada) :=
  ⟨by decide, by decide⟩

/-- C8 (amended): `create_transfer_notes` rejects an empty payload, a
missing admin, equal branches, an unknown material and a price ≤ 0 (so a
zero price, although non-negative, is refused), but quantities carry no
validation at all; the sale-side stock check runs before anything is
written; and on success both notas are approved, numbered consecutively,
cross-referenced in their admin comments, carry the same lines, add one
inventory movement per line of each nota, and (for pairwise-distinct
materials) origin stock decreases and destination stock increases by each
line's net kg, clamped at zero. -/
theorem c8_amended :
    (∀ (db : DB) (o d : ℕ) (aid : Option ℕ) (c onm dnm : Option String),
      create_transfer_notes db o d [] aid c onm dnm =
        .error Err.invalidInput) ∧
    (∀ (db : DB) (o : ℕ) (payload : List TransferLine) (aid : Option ℕ)
        (c onm dnm : Option String),
      payload.isEmpty = false → ¬ (aid.getD 0 = 0) →
      create_transfer_notes db o o payload aid c onm dnm =
        .error Err.invalidInput) ∧
    (∀ (db : DB) (o d : ℕ) (payload : List TransferLine) (aid : Option ℕ)
        (c onm dnm : Option String),
      payload.isEmpty = false → ¬ (aid.getD 0 = 0) → ¬ (o = d) →
      (∀ mp ∈ payload, db.materiales_ids.contains mp.material_id = true) →
      (∃ mp ∈ payload, mp.precio_unitario ≤ 0) →
      create_transfer_notes db o d payload aid c onm dnm =
        .error Err.invalidAmount) ∧
    (∀ (dm : List ℕ) (idx : ℕ) (payload : List TransferLine),
      (∀ mp ∈ payload, dm.contains mp.material_id = true ∧
        0 < mp.precio_unitario) →
      ∃ ms, build_transfer_materials dm idx payload = .ok ms) ∧
    (∀ (db : DB) (o d : ℕ) (payload : List TransferLine) (aid : Option ℕ)
        (c onm dnm : Option String) (ns0 ne0 : Nota) (e : Err),
      payload.isEmpty = false → ¬ (aid.getD 0 = 0) → ¬ (o = d) →
      build_transfer_note db.materiales_ids db.next_nota_id o
        TipoOperacion.venta payload = .ok ns0 →
      build_transfer_note db.materiales_ids (db.next_nota_id + 1) d
        TipoOperacion.compra payload = .ok ne0 →
      validar_stock_para_venta db.inventarios ns0 = .error e →
      create_transfer_notes db o d payload aid c onm dnm = .error e) ∧
    (∀ (db : DB) (o d : ℕ) (payload : List TransferLine) (aid : Option ℕ)
        (c onm dnm : Option String) (db2 : DB) (ns ne : Nota),
      create_transfer_notes db o d payload aid c onm dnm =
        .ok (db2, ns, ne) →
      ns.estado = NotaEstado.aprobada ∧ ne.estado = NotaEstado.aprobada ∧
      ns.sucursal_id = o ∧ ne.sucursal_id = d ∧
      ns.tipo_operacion = TipoOperacion.venta ∧
      ne.tipo_operacion = TipoOperacion.compra ∧
      ne.id = ns.id + 1 ∧
      ne.materiales = ns.materiales ∧
      ns.comentarios_admin = some ((c.getD "Transferencia entre sucursales") ++
        ". Destino: " ++ (dnm.getD "sucursal destino") ++
        ". Nota entrada #" ++ toString ne.id) ∧
      ne.comentarios_admin = some ((c.getD "Transferencia entre sucursales") ++
        ". Origen: " ++ (onm.getD "sucursal origen") ++
        ". Nota salida #" ++ toString ns.id) ∧
      db2.movimientos_inv.length = db.movimientos_inv.length +
        ns.materiales.length + ne.materiales.length ∧
      (∀ mp ∈ payload, db.materiales_ids.contains mp.material_id = true ∧
        0 < mp.precio_unitario)) ∧
    (∀ (db : DB) (o d : ℕ) (payload : List TransferLine) (aid : Option ℕ)
        (c onm dnm : Option String) (db2 : DB) (ns ne : Nota),
      create_transfer_notes db o d payload aid c onm dnm =
        .ok (db2, ns, ne) →
      ns.materiales.Pairwise (fun a b => a.material_id ≠ b.material_id) →
      ∀ nm ∈ ns.materiales,
        stockOf db2.inventarios o nm.material_id =
          (if stockOf db.inventarios o nm.material_id - nm.kg_neto < 0
           then 0
           else stockOf db.inventarios o nm.material_id - nm.kg_neto) ∧
        stockOf db2.inventarios d nm.material_id =
          (if stockOf db.inventarios d nm.material_id + nm.kg_neto < 0
           then 0
           else stockOf db.inventarios d nm.material_id + nm.kg_neto)) := by
  refine ⟨?_, ?_, ?_, ?_, ?_, ?_, ?_⟩
  · intro db o d aid c onm dnm
    exact transfer_empty_fails db o d aid c onm dnm
  · intro db o payload aid c onm dnm h1 h2
    exact transfer_same_branch_fails db o payload aid c onm dnm h1 h2
  · intro db o d payload aid c onm dnm h1 h2 h3 h4 h5
    exact transfer_price_fails db o d payload aid c onm dnm h1 h2 h3 h4 h5
  · intro dm idx payload h1
    exact build_transfer_materials_ok_of_conds dm payload idx h1
  · intro db o d payload aid c onm dnm ns0 ne0 e h1 h2 h3 h4 h5 h6
    exact transfer_stock_check_fails db o d payload aid c onm dnm ns0 ne0 e
      h1 h2 h3 h4 h5 h6
  · intro db o d payload aid c onm dnm db2 ns ne h
    exact transfer_ok_shape db o d payload aid c onm dnm db2 ns ne h
  · intro db o d payload aid c onm dnm db2 ns ne h hpw
    exact transfer_ok_stock db o d payload aid c onm dnm db2 ns ne h hpw

/-- Concrete instance of the C8 amended theorem: the 10 kg transfer of
material 7 from branch 1 to branch 2 moves the stock 100 → 90 at the
origin and 0 → 10 at the destination. -/
theorem c8_amended_witness :
    ∀ nm ∈ nsC10.materiales,
      stockOf dbC10r.inventarios 1 nm.material_id =
        (if stockOf dbC10.inventarios 1 nm.material_id - nm.kg_neto < 0
         then 0
         else stockOf dbC10.inventarios 1 nm.material_id - nm.kg_neto) ∧
      stockOf dbC10r.inventarios 2 nm.material_id =
        (if stockOf dbC10.inventarios 2 nm.material_id + nm.kg_neto < 0
         then 0
         else stockOf dbC10.inventarios 2 nm.material_id + nm.kg_neto) :=
  c8_amended.2.2.2.2.2.2 dbC10 1 2 payloadC10 (some 1) none none none
    dbC10r nsC10 neC10 (by decide) (by decide)
